import Mathlib

/-! Verification of the BATS Chi-X Europe PITCH parser core, a shallow
embedding of the two wire-format parsers of this repository:
`src/bats/parser.py` (the newline-delimited ASCII direct feed) and
`src/batsmc/parser.py` (the sequenced binary multicast feed).

Python values are rendered as follows: a `bytes` object is a list of
`Fin 256`; a `str` used as message data is a list of `Char`; a one-character
string produced by `chr` is identified with its Unicode codepoint (a `Nat`);
Python dictionaries become explicit association lists looked up by decidable
equality; fallible operations (struct.unpack, indexing, dict subscripting)
return `Except String`. -/

/-- A raw byte, one element of a Python `bytes` object. -/
abbrev Byte := Fin 256

/-- A Python `bytes` value. -/
abbrev Bytes := List Byte

/-- Python slice `data[a:b]` for nonnegative bounds: the elements with index
`a ≤ i < b` that exist; out-of-range bounds are forgiven, and `b ≤ a` gives
the empty list, exactly as in Python. -/
def pySlice {α : Type} (data : List α) (a b : Nat) : List α :=
  (data.take b).drop a

/-- Python indexing `data[i]`: raises `IndexError` when out of range. -/
def pyIndex {α : Type} (data : List α) (i : Nat) : Except String α :=
  match data[i]? with
  | some v => .ok v
  | none => .error "IndexError"

/-- The byte at index `i`, as a natural number (0 when out of range; used
only at indices known to be in range). -/
def byteAt (b : Bytes) (i : Nat) : Nat := (b.getD i 0).val

/-- Little-endian 16-bit value read at index `i`. -/
def u16at (b : Bytes) (i : Nat) : Nat := byteAt b i + 256 * byteAt b (i + 1)

/-- Little-endian 32-bit value read at index `i`. -/
def u32at (b : Bytes) (i : Nat) : Nat :=
  byteAt b i + 256 * byteAt b (i + 1) + 65536 * byteAt b (i + 2) +
    16777216 * byteAt b (i + 3)

/-- Little-endian 64-bit value read at index `i`. -/
def u64at (b : Bytes) (i : Nat) : Nat := u32at b i + 4294967296 * u32at b (i + 4)

/-- `struct.unpack("H", b)[0]`: requires exactly two bytes, else struct.error. -/
def u16le (b : Bytes) : Except String Nat :=
  if b.length = 2 then .ok (u16at b 0) else .error "struct.error"

/-- `struct.unpack("I", b)[0]`: requires exactly four bytes, else struct.error. -/
def u32le (b : Bytes) : Except String Nat :=
  if b.length = 4 then .ok (u32at b 0) else .error "struct.error"

/-- `struct.unpack("Q", b)[0]`: requires exactly eight bytes, else struct.error. -/
def u64le (b : Bytes) : Except String Nat :=
  if b.length = 8 then .ok (u64at b 0) else .error "struct.error"

/-- `MsgBody.get_fields` (identical in both parser modules): walk the layout
`names`, slicing `data[start : start + width]` for each `(name, width)` pair
and advancing `start` by `width`.  Slicing is forgiving, so a short body
yields short (possibly empty) field values, never an error. -/
def get_fields {α : Type} (data : List α) : List (String × Nat) → Nat → List (String × List α)
  | [], _ => []
  | (nm, w) :: rest, start =>
    (nm, pySlice data start (start + w)) :: get_fields data rest (start + w)

/-- Python dict subscripting on the field dictionary built by `get_fields`:
the layouts use distinct names, so first-match lookup is dict lookup. -/
def fieldsFind {α : Type} : List (String × α) → String → Option α
  | [], _ => none
  | (k, v) :: rest, key => if k = key then some v else fieldsFind rest key

/-- `fields[name]`: raises `KeyError` when the key is absent. -/
def fieldsGet {α : Type} (fields : List (String × α)) (key : String) : Except String α :=
  match fieldsFind fields key with
  | some v => .ok v
  | none => .error ("KeyError: " ++ key)

/-- A Python dictionary key as it occurs in the parsers: either a `str`
(a list of codepoints) or a `bytes` value.  In Python 3 a `str` never
compares equal to a `bytes`, which the derived equality reproduces. -/
inductive PyKey where
  | pstr : List Nat → PyKey
  | pbytes : List Nat → PyKey
deriving DecidableEq

/-- Whether a key is a `str` key. -/
def PyKey.isStr : PyKey → Bool
  | .pstr _ => true
  | .pbytes _ => false

/-- `dict.get(key)` / `dict.get(key, default)` over `PyKey`-keyed tables:
`d = none` models the implicit `None` default of one-argument `get`. -/
def dictGetPK : List (PyKey × Nat) → Option Nat → PyKey → Option Nat
  | [], d, _ => d
  | (k0, v) :: rest, d, k => if k0 = k then some v else dictGetPK rest d k

/-- `dict.get(key, default)` over `PyKey` tables with a mandatory default. -/
def dictGetPKD (tbl : List (PyKey × Nat)) (d : Nat) (k : PyKey) : Nat :=
  (dictGetPK tbl none k).getD d

/-- The `bytes` slice used as a lookup key (as in the multicast handlers,
which subscript string-keyed tables with one-byte `bytes` field values). -/
def bytesKey (b : Bytes) : PyKey := .pbytes (b.map Fin.val)

/-- `dict.get` over the character-keyed flag tables; keys are the codepoints
of the one-character strings of the source dictionaries, `d = none` models
`get` without a default. -/
def dictGetC : List (Nat × Nat) → Option Nat → Nat → Option Nat
  | [], d, _ => d
  | (k0, v) :: rest, d, k => if k0 = k then some v else dictGetC rest d k

/-- `dict.get(key, default)` over character-keyed tables. -/
def dictGetCD (tbl : List (Nat × Nat)) (d k : Nat) : Nat :=
  (dictGetC tbl none k).getD d

/-- `chr(b)` on a byte value: the one-character string with codepoint `b`,
identified with the codepoint itself. -/
def chrNat (b : Byte) : Nat := b.val

/-! ## Flag lookup tables

The dictionary literals below appear (textually identically) in the flag
functions of both parser modules; the per-variant default values live at the
`.get` call sites, not in the tables. -/

def market_mechanism_table : List (Nat × Nat) :=
  [('1'.toNat, 1), ('2'.toNat, 2), ('3'.toNat, 3), ('4'.toNat, 4)]

def trading_mode_table : List (Nat × Nat) :=
  [('1'.toNat, 1), ('2'.toNat, 2), ('3'.toNat, 3), ('4'.toNat, 4),
   ('5'.toNat, 5), ('6'.toNat, 6), ('7'.toNat, 7), ('O'.toNat, 8),
   ('K'.toNat, 9), ('I'.toNat, 10), ('U'.toNat, 11)]

def transaction_category_table : List (Nat × Nat) :=
  [('P'.toNat, 1), ('D'.toNat, 2), ('T'.toNat, 3), ('G'.toNat, 4), ('F'.toNat, 5)]

def negotiated_trade_table : List (Nat × Nat) := [('N'.toNat, 1)]

def crossing_trade_table : List (Nat × Nat) := [('X'.toNat, 1)]

def modification_indicator_table : List (Nat × Nat) := [('A'.toNat, 1), ('C'.toNat, 2)]

def benchmark_indicator_table : List (Nat × Nat) := [('B'.toNat, 1)]

def ex_cum_dividend_table : List (Nat × Nat) := [('E'.toNat, 1)]

def offbook_automated_indicator_table : List (Nat × Nat) :=
  [('Q'.toNat, 1), ('M'.toNat, 2)]

def publication_indicator_table : List (Nat × Nat) := [('1'.toNat, 1)]

def trade_timing_indicator_table : List (Nat × Nat) := [('1'.toNat, 1), ('2'.toNat, 2)]

/-! ## Catalog data (message code, handler name, decorator length, layout)

One entry per member of the `self.types` dictionary of each variant; the
`msgLen` is the argument of the `process_msg_header` decorator of the handler
and the layout is the handler's `names` tuple. -/

structure CatEntry where
  code : Nat
  hname : String
  msgLen : Nat
  layout : List (String × Nat)
deriving DecidableEq

/-- The sum of the field widths of a layout. -/
def sumWidths (layout : List (String × Nat)) : Nat :=
  layout.foldr (fun p acc => p.2 + acc) 0

/-! ### Direct-feed (src/bats/parser.py) layouts -/

def bats_clear_names : List (String × Nat) := [("pitch_symbol", 8)]

def bats_add_order_names : List (String × Nat) :=
  [("pitch_order", 12), ("pitch_side", 1), ("pitch_shares_s", 6),
   ("pitch_symbol", 6), ("pitch_price_s", 10), ("pitch_display", 1)]

def bats_add_order_long_names : List (String × Nat) :=
  [("pitch_order", 12), ("pitch_side", 1), ("pitch_shares_l", 10),
   ("pitch_symbol", 8), ("pitch_price_l", 19), ("pitch_display", 1)]

def bats_add_order_exp_names : List (String × Nat) :=
  [("pitch_order", 12), ("pitch_side", 1), ("pitch_shares_l", 10),
   ("pitch_symbol", 8), ("pitch_price_l", 19), ("pitch_type", 1),
   ("pitch_participant", 4)]

def bats_order_executed_names : List (String × Nat) :=
  [("pitch_order", 12), ("pitch_shares_s", 6), ("pitch_execution", 12),
   ("flags", 3)]

def bats_order_executed_long_names : List (String × Nat) :=
  [("pitch_order", 12), ("pitch_shares_l", 10), ("pitch_execution", 12),
   ("flags", 3)]

def bats_order_cancel_names : List (String × Nat) :=
  [("pitch_order", 12), ("pitch_shares_s", 6)]

def bats_order_cancel_long_names : List (String × Nat) :=
  [("pitch_order", 12), ("pitch_shares_l", 10)]

def bats_trade_names : List (String × Nat) :=
  [("pitch_order", 12), ("pitch_side", 1), ("pitch_shares_s", 6),
   ("pitch_symbol", 6), ("pitch_price_s", 10), ("pitch_execution", 12),
   ("flags", 4)]

def bats_trade_long_names : List (String × Nat) :=
  [("pitch_order", 12), ("pitch_side", 1), ("pitch_shares_s", 10),
   ("pitch_symbol", 8), ("pitch_price_l", 19), ("pitch_execution", 12),
   ("flags", 4)]

def bats_trade_break_names : List (String × Nat) := [("pitch_execution", 12)]

def bats_trade_report_names : List (String × Nat) :=
  [("pitch_shares_l", 12), ("pitch_symbol", 8), ("pitch_price_l", 19),
   ("pitch_trade", 12), ("date", 8), ("time", 8), ("pitch_exec_venue", 4),
   ("pitch_currency", 3), ("flags", 11)]

def bats_trading_status_names : List (String × Nat) :=
  [("pitch_symbol", 8), ("pitch_status", 1), ("pitch_reserved", 3)]

def bats_statistics_names : List (String × Nat) :=
  [("pitch_symbol", 8), ("pitch_price_l", 19), ("pitch_statistic_type", 1),
   ("pitch_price_determination", 1)]

def bats_auction_update_names : List (String × Nat) :=
  [("pitch_symbol", 8), ("pitch_auction_type", 1),
   ("pitch_reference_price_l", 19), ("pitch_buy_shares_l", 10),
   ("pitch_sell_shares_l", 10), ("pitch_indicative_price_l", 19)]

def bats_auction_summary_names : List (String × Nat) :=
  [("pitch_symbol", 8), ("pitch_auction_type", 1), ("pitch_price_l", 19),
   ("pitch_share_l", 10)]

/-- The direct-feed catalog (`self.types` in src/bats/parser.py): the code is
the codepoint of the one-character type string. -/
def batsCatalog : List CatEntry :=
  [⟨'s'.toNat, "msg_clear", 8, bats_clear_names⟩,
   ⟨'A'.toNat, "msg_add_order", 45, bats_add_order_names⟩,
   ⟨'c'.toNat, "msg_add_order_long", 60, bats_add_order_long_names⟩,
   ⟨'t'.toNat, "msg_add_order_exp", 64, bats_add_order_exp_names⟩,
   ⟨'E'.toNat, "msg_order_executed", 42, bats_order_executed_names⟩,
   ⟨'e'.toNat, "msg_order_executed_long", 46, bats_order_executed_long_names⟩,
   ⟨'X'.toNat, "msg_order_cancel", 27, bats_order_cancel_names⟩,
   ⟨'x'.toNat, "msg_order_cancel_long", 31, bats_order_cancel_long_names⟩,
   ⟨'P'.toNat, "msg_trade", 60, bats_trade_names⟩,
   ⟨'q'.toNat, "msg_trade_long", 75, bats_trade_long_names⟩,
   ⟨'B'.toNat, "msg_trade_break", 21, bats_trade_break_names⟩,
   ⟨'O'.toNat, "msg_trade_report", 94, bats_trade_report_names⟩,
   ⟨'H'.toNat, "msg_trading_status", 21, bats_trading_status_names⟩,
   ⟨'Z'.toNat, "msg_statistics", 38, bats_statistics_names⟩,
   ⟨'k'.toNat, "msg_auction_update", 76, bats_auction_update_names⟩,
   ⟨'j'.toNat, "msg_auction_summary", 47, bats_auction_summary_names⟩]

/-- The direct-feed add-order catalog entry, named for reference in
statements about `batsCatalog`. -/
def batsAddOrderEntry : CatEntry := ⟨'A'.toNat, "msg_add_order", 45, bats_add_order_names⟩

/-! ### Multicast (src/batsmc/parser.py) layouts -/

def mc_login_names : List (String × Nat) :=
  [("login_session_sub_id", 4), ("login_username", 4), ("login_filler", 2),
   ("login_password", 10)]

def mc_login_response_names : List (String × Nat) := [("flags", 1)]

def mc_gap_request_names : List (String × Nat) :=
  [("gap_unit", 1), ("gap_sequense", 4), ("gap_count", 2)]

def mc_gap_response_names : List (String × Nat) :=
  [("gap_unit", 1), ("gap_sequence", 4), ("gap_count", 2), ("flags", 1)]

def mc_time_names : List (String × Nat) := [("pitch_time", 4)]

def mc_clear_names : List (String × Nat) := [("pitch_time_offset", 4)]

def mc_add_order_names : List (String × Nat) :=
  [("pitch_time_offset", 4), ("pitch_order", 8), ("pitch_side", 1),
   ("pitch_shares_s", 2), ("pitch_symbol", 6), ("pitch_price_s", 2)]

def mc_add_order_long_names : List (String × Nat) :=
  [("pitch_time_offset", 4), ("pitch_order", 8), ("pitch_side", 1),
   ("pitch_shares_l", 4), ("pitch_symbol", 8), ("pitch_price_l", 8)]

def mc_add_order_exp_names : List (String × Nat) :=
  [("pitch_time_offset", 4), ("pitch_order", 8), ("pitch_side", 1),
   ("pitch_share_ls", 4), ("pitch_symbol", 8), ("pitch_price_l", 8),
   ("pitch_add_order_flags", 1), ("pitch_participant", 4)]

def mc_order_executed_names : List (String × Nat) :=
  [("pitch_time_offset", 4), ("pitch_order", 8), ("pitch_shares_l", 4),
   ("pitch_execution_id", 8), ("flags", 3)]

def mc_order_executed_price_names : List (String × Nat) :=
  [("pitch_time_offset", 4), ("pitch_order", 8), ("pitch_e_shares_l", 4),
   ("pitch_r_shares_l", 4), ("pitch_execution_id", 8), ("pitch_price_l", 8),
   ("flags", 3)]

def mc_reduce_size_short_names : List (String × Nat) :=
  [("pitch_time_offset", 4), ("pitch_order", 8), ("pitch_shares_s", 2)]

def mc_reduce_size_long_names : List (String × Nat) :=
  [("pitch_time_offset", 4), ("pitch_order", 8), ("pitch_shares_l", 4)]

def mc_modify_order_short_names : List (String × Nat) :=
  [("pitch_time_offset", 4), ("pitch_order", 8), ("pitch_shares_s", 2),
   ("pitch_price_s", 2)]

def mc_modify_order_long_names : List (String × Nat) :=
  [("pitch_time_offset", 4), ("pitch_order", 8), ("pitch_shares_l", 4),
   ("pitch_price_l", 8)]

def mc_delete_order_names : List (String × Nat) :=
  [("pitch_time_offset", 4), ("pitch_order", 8)]

def mc_trade_short_names : List (String × Nat) :=
  [("pitch_time_offset", 4), ("pitch_order", 8), ("pitch_side", 1),
   ("pitch_shares_s", 2), ("pitch_symbol", 6), ("pitch_price_s", 2),
   ("pitch_execution_id", 8), ("flags", 4)]

def mc_trade_long_names : List (String × Nat) :=
  [("pitch_time_offset", 4), ("pitch_order", 8), ("pitch_side", 1),
   ("pitch_shares_l", 4), ("pitch_symbol", 8), ("pitch_price_l", 8),
   ("pitch_execution_id", 8), ("flags", 4)]

def mc_trade_break_names : List (String × Nat) :=
  [("pitch_time_offset", 4), ("pitch_execution_id", 8)]

def mc_trade_report_names : List (String × Nat) :=
  [("pitch_time_offset", 4), ("pitch_shares_ll", 8), ("pitch_symbol", 8),
   ("pitch_price_l", 8), ("pitch_trade", 8), ("pitch_trade_timestamp", 8),
   ("pitch_exec_venue", 4), ("pitch_currency", 3), ("flags", 11)]

def mc_end_session_names : List (String × Nat) := [("pitch_time_offset", 4)]

def mc_trading_status_names : List (String × Nat) :=
  [("pitch_time_offset", 4), ("pitch_symbol", 8), ("flags", 1),
   ("pitch_reserved", 3)]

def mc_statistics_names : List (String × Nat) :=
  [("pitch_time_offset", 4), ("pitch_symbol", 8), ("pitch_price_l", 8),
   ("flags", 1), ("price_determination", 1)]

def mc_auction_update_names : List (String × Nat) :=
  [("pitch_time_offset", 4), ("pitch_symbol", 8), ("auction_type", 1),
   ("pitch_reference_price_l", 8), ("pitch_buy_shares_l", 4),
   ("pitch_sell_shares_l", 4), ("pitch_indicative_price_l", 8),
   ("pitch_reserved", 8)]

def mc_auction_summary_names : List (String × Nat) :=
  [("pitch_time_offset", 4), ("pitch_symbol", 8), ("auction_type", 1),
   ("pitch_price_l", 8), ("pitch_shares_l", 4)]

/-- The multicast catalog (`self.types` in src/batsmc/parser.py). -/
def mcCatalog : List CatEntry :=
  [⟨0x01, "msg_login", 20, mc_login_names⟩,
   ⟨0x02, "msg_login_response", 1, mc_login_response_names⟩,
   ⟨0x03, "msg_gap_request", 7, mc_gap_request_names⟩,
   ⟨0x04, "msg_gap_response", 8, mc_gap_response_names⟩,
   ⟨0x20, "msg_time", 4, mc_time_names⟩,
   ⟨0x97, "msg_clear", 4, mc_clear_names⟩,
   ⟨0x22, "msg_add_order", 23, mc_add_order_names⟩,
   ⟨0x40, "msg_add_order_long", 33, mc_add_order_long_names⟩,
   ⟨0x2f, "msg_add_order_exp", 38, mc_add_order_exp_names⟩,
   ⟨0x23, "msg_order_executed", 27, mc_order_executed_names⟩,
   ⟨0x24, "msg_order_executed_price", 39, mc_order_executed_price_names⟩,
   ⟨0x25, "msg_reduce_size_long", 16, mc_reduce_size_long_names⟩,
   ⟨0x26, "msg_reduce_size_short", 14, mc_reduce_size_short_names⟩,
   ⟨0x27, "msg_modify_order_long", 24, mc_modify_order_long_names⟩,
   ⟨0x28, "msg_modify_order_short", 16, mc_modify_order_short_names⟩,
   ⟨0x29, "msg_delete_order", 12, mc_delete_order_names⟩,
   ⟨0x2b, "msg_trade_short", 35, mc_trade_short_names⟩,
   ⟨0x41, "msg_trade_long", 45, mc_trade_long_names⟩,
   ⟨0x2c, "msg_trade_break", 12, mc_trade_break_names⟩,
   ⟨0x32, "msg_trade_report", 62, mc_trade_report_names⟩,
   ⟨0x2d, "msg_end_session", 4, mc_end_session_names⟩,
   ⟨0x31, "msg_trading_status", 21, mc_trading_status_names⟩,
   ⟨0x34, "msg_statistics", 22, mc_statistics_names⟩,
   ⟨0x95, "msg_auction_update", 45, mc_auction_update_names⟩,
   ⟨0x96, "msg_auction_summary", 47, mc_auction_summary_names⟩]

/-! ## Multicast feed: flags state, session, handlers, dispatcher -/

/-- The codes present in the multicast `self.types` dictionary. -/
def mcTypeCodes : List Nat :=
  [0x01, 0x02, 0x03, 0x04, 0x20, 0x97, 0x22, 0x40, 0x2f, 0x23, 0x24, 0x25,
   0x26, 0x27, 0x28, 0x29, 0x2b, 0x41, 0x2c, 0x32, 0x2d, 0x31, 0x34, 0x95, 0x96]

/-- The `Flags` ctypes union of src/batsmc/parser.py.  Each declared bitfield
stores its value truncated to its width (3 bits everywhere except the 4-bit
`trading_mode`); a store of `v` keeps `v % 2^width`.  The last three fields
model plain Python attributes that handlers assign under names that are NOT
declared in `_fields_` (`statistic_type`, `pitch_price_determination`,
`auction_type`): ctypes instances accept such assignments as ordinary
attributes, with no bitfield truncation. -/
structure FlagsState where
  market_mechanism : Nat := 0
  trading_mode : Nat := 0
  transaction_category : Nat := 0
  modification_indicator : Nat := 0
  offbook_automated_indicator : Nat := 0
  trade_timing_indicator : Nat := 0
  benchmark_indicator : Nat := 0
  crossing_trade : Nat := 0
  ex_cum_dividend : Nat := 0
  negotiated_trade : Nat := 0
  publication_indicator : Nat := 0
  trading_status : Nat := 0
  statistics_type : Nat := 0
  login_status : Nat := 0
  gap_status : Nat := 0
  statistic_type_attr : Option Nat := none
  pitch_price_determination_attr : Option Nat := none
  auction_type_attr : Option Nat := none
deriving DecidableEq

/-- Multicast parser session state: `self.midnight` (epoch seconds of the
process day), `self.pitch_time` (the raw field stored by the Time message,
absent before the first Time message: reading it then raises
`AttributeError`), and `self.contract` (the current block sequence number). -/
structure MCSession where
  midnight : ℚ
  pitchTime : Option Bytes := none
  contract : Nat := 0
deriving DecidableEq

/-- The field dictionary of a multicast handler. -/
abbrev McFields := List (String × Bytes)

/-- A multicast message handler: may update the session and returns the field
dictionary together with the flags accumulated for this message, or the
exception it raised. -/
abbrev McHandler := MCSession → Bytes → MCSession × Except String (McFields × FlagsState)

/-- `@flag def market_mechanism` (multicast): store into the 3-bit field. -/
def Mc.market_mechanism (f : FlagsState) (b : Byte) : FlagsState :=
  { f with market_mechanism := dictGetCD market_mechanism_table 0 (chrNat b) % 8 }

/-- `@flag def trading_mode` (multicast): store into the 4-bit field. -/
def Mc.trading_mode (f : FlagsState) (b : Byte) : FlagsState :=
  { f with trading_mode := dictGetCD trading_mode_table 0 (chrNat b) % 16 }

/-- `@flag def transaction_category` (multicast). -/
def Mc.transaction_category (f : FlagsState) (b : Byte) : FlagsState :=
  { f with transaction_category := dictGetCD transaction_category_table 0 (chrNat b) % 8 }

/-- `@flag def negotiated_trade` (multicast). -/
def Mc.negotiated_trade (f : FlagsState) (b : Byte) : FlagsState :=
  { f with negotiated_trade := dictGetCD negotiated_trade_table 0 (chrNat b) % 8 }

/-- `@flag def crossing_trade` (multicast). -/
def Mc.crossing_trade (f : FlagsState) (b : Byte) : FlagsState :=
  { f with crossing_trade := dictGetCD crossing_trade_table 0 (chrNat b) % 8 }

/-- `@flag def modification_indicator` (multicast): default 0, unlike the
direct feed where the same table has default 3. -/
def Mc.modification_indicator (f : FlagsState) (b : Byte) : FlagsState :=
  { f with modification_indicator := dictGetCD modification_indicator_table 0 (chrNat b) % 8 }

/-- `@flag def benchmark_indicator` (multicast). -/
def Mc.benchmark_indicator (f : FlagsState) (b : Byte) : FlagsState :=
  { f with benchmark_indicator := dictGetCD benchmark_indicator_table 0 (chrNat b) % 8 }

/-- `@flag def ex_cum_dividend` (multicast). -/
def Mc.ex_cum_dividend (f : FlagsState) (b : Byte) : FlagsState :=
  { f with ex_cum_dividend := dictGetCD ex_cum_dividend_table 0 (chrNat b) % 8 }

/-- `@flag def offbook_automated_indicator` (multicast). -/
def Mc.offbook_automated_indicator (f : FlagsState) (b : Byte) : FlagsState :=
  { f with offbook_automated_indicator := dictGetCD offbook_automated_indicator_table 0 (chrNat b) % 8 }

/-- `@flag def publication_indicator` (multicast). -/
def Mc.publication_indicator (f : FlagsState) (b : Byte) : FlagsState :=
  { f with publication_indicator := dictGetCD publication_indicator_table 0 (chrNat b) % 8 }

/-- `@flag def trade_timing_indicator` (multicast). -/
def Mc.trade_timing_indicator (f : FlagsState) (b : Byte) : FlagsState :=
  { f with trade_timing_indicator := dictGetCD trade_timing_indicator_table 0 (chrNat b) % 8 }

/-- `parse_order_execution_flag`: index bytes 0..2 of the flags field
(IndexError on a short field) and store the three flags in order. -/
def Mc.parse_order_execution_flag (f : FlagsState) (d : Bytes) : Except String FlagsState := do
  let b0 ← pyIndex d 0
  let f := Mc.market_mechanism f b0
  let b1 ← pyIndex d 1
  let f := Mc.trading_mode f b1
  let b2 ← pyIndex d 2
  pure (Mc.ex_cum_dividend f b2)

/-- `parse_trade_flags`: bytes 0..3 of the flags field. -/
def Mc.parse_trade_flags (f : FlagsState) (d : Bytes) : Except String FlagsState := do
  let b0 ← pyIndex d 0
  let f := Mc.market_mechanism f b0
  let b1 ← pyIndex d 1
  let f := Mc.trading_mode f b1
  let b2 ← pyIndex d 2
  let f := Mc.transaction_category f b2
  let b3 ← pyIndex d 3
  pure (Mc.ex_cum_dividend f b3)

/-- `parse_trade_report_flags`: bytes 0..10 of the flags field. -/
def Mc.parse_trade_report_flags (f : FlagsState) (d : Bytes) : Except String FlagsState := do
  let b0 ← pyIndex d 0
  let f := Mc.trade_timing_indicator f b0
  let b1 ← pyIndex d 1
  let f := Mc.market_mechanism f b1
  let b2 ← pyIndex d 2
  let f := Mc.trading_mode f b2
  let b3 ← pyIndex d 3
  let f := Mc.transaction_category f b3
  let b4 ← pyIndex d 4
  let f := Mc.negotiated_trade f b4
  let b5 ← pyIndex d 5
  let f := Mc.crossing_trade f b5
  let b6 ← pyIndex d 6
  let f := Mc.modification_indicator f b6
  let b7 ← pyIndex d 7
  let f := Mc.benchmark_indicator f b7
  let b8 ← pyIndex d 8
  let f := Mc.ex_cum_dividend f b8
  let b9 ← pyIndex d 9
  let f := Mc.publication_indicator f b9
  let b10 ← pyIndex d 10
  pure (Mc.offbook_automated_indicator f b10)

/-! ### Inline string-keyed tables of the multicast handlers.

The handlers subscript these tables with one-byte `bytes` field slices; the
keys are `str` values, so in Python 3 the lookup can never match and the
`.get` default is always returned. -/

def login_status_table : List (PyKey × Nat) :=
  [(.pstr ['A'.toNat], 1), (.pstr ['N'.toNat], 2), (.pstr ['B'.toNat], 3),
   (.pstr ['S'.toNat], 4)]

def gap_status_table : List (PyKey × Nat) :=
  [(.pstr ['A'.toNat], 1), (.pstr ['O'.toNat], 2), (.pstr ['D'.toNat], 3),
   (.pstr ['M'.toNat], 4), (.pstr ['S'.toNat], 5), (.pstr ['C'.toNat], 6),
   (.pstr ['I'.toNat], 7)]

def mc_trading_status_table : List (PyKey × Nat) :=
  [(.pstr ['T'.toNat], 1), (.pstr ['R'.toNat], 2), (.pstr ['C'.toNat], 3),
   (.pstr ['S'.toNat], 4), (.pstr ['N'.toNat], 5), (.pstr ['V'.toNat], 6),
   (.pstr ['O'.toNat], 7), (.pstr ['E'.toNat], 8), (.pstr ['H'.toNat], 9),
   (.pstr ['M'.toNat], 10), (.pstr ['P'.toNat], 11)]

def statistic_type_table : List (PyKey × Nat) :=
  [(.pstr ['C'.toNat], 1), (.pstr ['H'.toNat], 2), (.pstr ['L'.toNat], 3),
   (.pstr ['O'.toNat], 4), (.pstr ['P'.toNat], 5)]

def price_determination_table : List (PyKey × Nat) :=
  [(.pstr ['0'.toNat], 1), (.pstr ['1'.toNat], 2)]

def auction_type_table : List (PyKey × Nat) :=
  [(.pstr ['O'.toNat], 1), (.pstr ['C'.toNat], 2), (.pstr ['H'.toNat], 3),
   (.pstr ['V'.toNat], 4)]

/-- The lookup performed by the multicast trading-status handler, including
the 3-bit truncation of the store into `Flags.trading_status`. -/
def mcTradingStatusValue (v : Bytes) : Nat :=
  dictGetPKD mc_trading_status_table 0 (bytesKey v) % 8

/-- A handler that only extracts its field dictionary. -/
def Mc.plainHandler (names : List (String × Nat)) : McHandler := fun s body =>
  (s, .ok (get_fields body names 0, {}))

/-- A handler that extracts fields and then runs a flag-parsing routine on
`fields['flags']`. -/
def Mc.flagFieldHandler (names : List (String × Nat))
    (pf : FlagsState → Bytes → Except String FlagsState) : McHandler := fun s body =>
  let fields := get_fields body names 0
  match fieldsGet fields "flags" with
  | .ok v =>
    match pf {} v with
    | .ok f => (s, .ok (fields, f))
    | .error e => (s, .error e)
  | .error e => (s, .error e)

/-- `msg_login_response`: looks up `fields['flags']` in the string-keyed
login-status table and returns an EMPTY dictionary (the source returns `{}`). -/
def Mc.msg_login_response : McHandler := fun s body =>
  let fields := get_fields body mc_login_response_names 0
  match fieldsGet fields "flags" with
  | .ok v => (s, .ok ([], { login_status := dictGetPKD login_status_table 0 (bytesKey v) % 8 }))
  | .error e => (s, .error e)

/-- `msg_gap_response`. -/
def Mc.msg_gap_response : McHandler := fun s body =>
  let fields := get_fields body mc_gap_response_names 0
  match fieldsGet fields "flags" with
  | .ok v => (s, .ok (fields, { gap_status := dictGetPKD gap_status_table 0 (bytesKey v) % 8 }))
  | .error e => (s, .error e)

/-- `msg_time`: stores the raw 4-byte field into `self.pitch_time`. -/
def Mc.msg_time : McHandler := fun s body =>
  let fields := get_fields body mc_time_names 0
  match fieldsGet fields "pitch_time" with
  | .ok v => ({ s with pitchTime := some v }, .ok (fields, {}))
  | .error e => (s, .error e)

/-- `msg_trading_status`: the layout names the status byte `flags`; the
lookup key is a one-byte `bytes` slice against `str` keys. -/
def Mc.msg_trading_status : McHandler := fun s body =>
  let fields := get_fields body mc_trading_status_names 0
  match fieldsGet fields "flags" with
  | .ok v => (s, .ok (fields, { trading_status := mcTradingStatusValue v }))
  | .error e => (s, .error e)

/-- `msg_statistics`: assigns `self.flags.statistic_type` and
`self.flags.pitch_price_determination`, names that are not declared ctypes
bitfields, so they become plain attributes (no truncation). -/
def Mc.msg_statistics : McHandler := fun s body =>
  let fields := get_fields body mc_statistics_names 0
  match fieldsGet fields "flags", fieldsGet fields "price_determination" with
  | .ok v1, .ok v2 =>
    (s, .ok (fields,
      { statistic_type_attr := some (dictGetPKD statistic_type_table 0 (bytesKey v1)),
        pitch_price_determination_attr := some (dictGetPKD price_determination_table 0 (bytesKey v2)) }))
  | .error e, _ => (s, .error e)
  | _, .error e => (s, .error e)

/-- `msg_auction_update`: reads `fields['flags']`, but the layout names that
byte `auction_type` and declares no field named `flags`. -/
def Mc.msg_auction_update : McHandler := fun s body =>
  let fields := get_fields body mc_auction_update_names 0
  match fieldsGet fields "flags" with
  | .ok v => (s, .ok (fields, { auction_type_attr := some (dictGetPKD auction_type_table 0 (bytesKey v)) }))
  | .error e => (s, .error e)

/-- `msg_auction_summary`: same `fields['flags']` read as `msg_auction_update`. -/
def Mc.msg_auction_summary : McHandler := fun s body =>
  let fields := get_fields body mc_auction_summary_names 0
  match fieldsGet fields "flags" with
  | .ok v => (s, .ok (fields, { auction_type_attr := some (dictGetPKD auction_type_table 0 (bytesKey v)) }))
  | .error e => (s, .error e)

/-- The handler bound to each code in the multicast `self.types` dictionary. -/
def Mc.handler (ty : Nat) : McHandler :=
  if ty = 0x01 then Mc.plainHandler mc_login_names
  else if ty = 0x02 then Mc.msg_login_response
  else if ty = 0x03 then Mc.plainHandler mc_gap_request_names
  else if ty = 0x04 then Mc.msg_gap_response
  else if ty = 0x20 then Mc.msg_time
  else if ty = 0x97 then Mc.plainHandler mc_clear_names
  else if ty = 0x22 then Mc.plainHandler mc_add_order_names
  else if ty = 0x40 then Mc.plainHandler mc_add_order_long_names
  else if ty = 0x2f then Mc.plainHandler mc_add_order_exp_names
  else if ty = 0x23 then Mc.flagFieldHandler mc_order_executed_names Mc.parse_order_execution_flag
  else if ty = 0x24 then Mc.flagFieldHandler mc_order_executed_price_names Mc.parse_order_execution_flag
  else if ty = 0x25 then Mc.plainHandler mc_reduce_size_long_names
  else if ty = 0x26 then Mc.plainHandler mc_reduce_size_short_names
  else if ty = 0x27 then Mc.plainHandler mc_modify_order_long_names
  else if ty = 0x28 then Mc.plainHandler mc_modify_order_short_names
  else if ty = 0x29 then Mc.plainHandler mc_delete_order_names
  else if ty = 0x2b then Mc.flagFieldHandler mc_trade_short_names Mc.parse_trade_flags
  else if ty = 0x41 then Mc.flagFieldHandler mc_trade_long_names Mc.parse_trade_flags
  else if ty = 0x2c then Mc.plainHandler mc_trade_break_names
  else if ty = 0x32 then Mc.flagFieldHandler mc_trade_report_names Mc.parse_trade_report_flags
  else if ty = 0x2d then Mc.plainHandler mc_end_session_names
  else if ty = 0x31 then Mc.msg_trading_status
  else if ty = 0x34 then Mc.msg_statistics
  else if ty = 0x95 then Mc.msg_auction_update
  else if ty = 0x96 then Mc.msg_auction_summary
  else fun s _ => (s, .error "unknown type")

/-- The `process_msg_header` decorator argument of each multicast handler. -/
def Mc.msgLenOf (ty : Nat) : Nat :=
  if ty = 0x01 then 20
  else if ty = 0x02 then 1
  else if ty = 0x03 then 7
  else if ty = 0x04 then 8
  else if ty = 0x20 then 4
  else if ty = 0x97 then 4
  else if ty = 0x22 then 23
  else if ty = 0x40 then 33
  else if ty = 0x2f then 38
  else if ty = 0x23 then 27
  else if ty = 0x24 then 39
  else if ty = 0x25 then 16
  else if ty = 0x26 then 14
  else if ty = 0x27 then 24
  else if ty = 0x28 then 16
  else if ty = 0x29 then 12
  else if ty = 0x2b then 35
  else if ty = 0x41 then 45
  else if ty = 0x2c then 12
  else if ty = 0x32 then 62
  else if ty = 0x2d then 4
  else if ty = 0x31 then 21
  else if ty = 0x34 then 22
  else if ty = 0x95 then 45
  else if ty = 0x96 then 47
  else 0

/-- `mtype in self.types` for the multicast catalog. -/
def Mc.known (ty : Nat) : Bool := decide (ty ∈ mcTypeCodes)

/-! ## Multicast map_quote and dispatcher wrapper -/

/-- `datetime.fromtimestamp`, modeled as the identity on epoch seconds within
the representable window (year 1 to year 9999); `date_format` returns `None`
for stamps it cannot convert. -/
def pyFromTimestamp (q : ℚ) : Option ℚ :=
  if -62135596800 ≤ q ∧ q < 253402300800 then some q else none

/-- The timestamp produced by `map_quote.get_ts`: `datetime.now()` when the
message has no `pitch_time_offset` field, otherwise the converted absolute
stamp (or `None` when out of range). -/
inductive TsOut where
  | now : TsOut
  | dt : Option ℚ → TsOut
deriving DecidableEq

/-- The `entry` dictionary built by the multicast `map_quote`. -/
structure EntryOut where
  size : Option Nat := none
  price : Option ℚ := none
  side : Option Nat := none
  flags : FlagsState := {}
deriving DecidableEq

/-- The outcome of one dispatched multicast message: the arguments handed to
`write_quote`, or the logged-and-ignored exception text.  (The wrapper always
returns `data[msg_len:]` to its caller either way; the caller discards it.) -/
inductive MsgResult where
  | delivered : Nat → TsOut → EntryOut → MsgResult
  | malformed : String → MsgResult
deriving DecidableEq

/-- `map_quote`'s long-price conversion: `float(unpack("Q", x)[0] / 10000)`.
Division is modeled exactly; the worked values in this development are
exactly representable in double precision as well. -/
def mqPriceL (b : Bytes) : Except String ℚ :=
  match u64le b with
  | .ok n => .ok ((n : ℚ) / 10000)
  | .error e => .error e

/-- `map_quote`'s short-price conversion: `float(unpack("H", x)[0] / 100)`. -/
def mqPriceS (b : Bytes) : Except String ℚ :=
  match u16le b with
  | .ok n => .ok ((n : ℚ) / 100)
  | .error e => .error e

/-- The side table `{b'B': 0, b'S': 1}` — its keys really are `bytes`. -/
def side_table : List (PyKey × Nat) :=
  [(.pbytes ['B'.toNat], 0), (.pbytes ['S'.toNat], 1)]

/-- `map_entry` for the size conversions: when the source field is present,
convert it (propagating any unpack exception) and overwrite `entry['size']`. -/
def mapEntrySize (fields : McFields) (src : String)
    (conv : Bytes → Except String Nat) (e : EntryOut) : Except String EntryOut :=
  match fieldsFind fields src with
  | none => .ok e
  | some v =>
    match conv v with
    | .ok n => .ok { e with size := some n }
    | .error err => .error err

/-- `map_entry` for the price conversions. -/
def mapEntryPrice (fields : McFields) (src : String)
    (conv : Bytes → Except String ℚ) (e : EntryOut) : Except String EntryOut :=
  match fieldsFind fields src with
  | none => .ok e
  | some v =>
    match conv v with
    | .ok n => .ok { e with price := some n }
    | .error err => .error err

/-- `map_entry` for `pitch_side` (dict `.get`, never raises). -/
def mapEntrySide (fields : McFields) (e : EntryOut) : EntryOut :=
  match fieldsFind fields "pitch_side" with
  | none => e
  | some v => { e with side := dictGetPK side_table none (bytesKey v) }

/-- `map_quote.get_ts`: `datetime.now()` unless the message carries a
`pitch_time_offset` field, in which case the stamp is
`midnight + unpack("I", self.pitch_time)[0] + unpack("I", offset)[0] / 1000`;
reading `self.pitch_time` before any Time message raises `AttributeError`. -/
def Mc.get_ts (s : MCSession) (fields : McFields) : Except String TsOut :=
  match fieldsFind fields "pitch_time_offset" with
  | none => .ok .now
  | some ofs =>
    match s.pitchTime with
    | none => .error "AttributeError: pitch_time"
    | some t =>
      match u32le t with
      | .error e => .error e
      | .ok ptv =>
        match u32le ofs with
        | .error e => .error e
        | .ok ov => .ok (.dt (pyFromTimestamp (s.midnight + (ptv : ℚ) + (ov : ℚ) / 1000)))

/-- The multicast `map_quote`: builds the entry (sizes, then prices, then
side, in source order), attaches the flags, and returns
`(contract, get_ts(), entry, "")` — any exception propagates to the wrapper. -/
def Mc.map_quote (s : MCSession) (fields : McFields) (fl : FlagsState) :
    Except String (Nat × TsOut × EntryOut) := do
  let e : EntryOut := {}
  let e ← mapEntrySize fields "pitch_shares_s" u16le e
  let e ← mapEntrySize fields "pitch_shares_l" u32le e
  let e ← mapEntrySize fields "pitch_shares_ll" u64le e
  let e ← mapEntryPrice fields "pitch_price_l" mqPriceL e
  let e ← mapEntryPrice fields "pitch_price_s" mqPriceS e
  let e := mapEntrySide fields e
  let ts ← Mc.get_ts s fields
  pure (s.contract, ts, { e with flags := fl })

/-- The multicast `process_msg_header` wrapper: slice the declared width, run
the handler, then `map_quote` + `write_quote`; ANY exception is caught,
logged via `self.to_bstr` (which this module does define) and the message is
ignored; the wrapper then returns `data[msg_len:]` unconditionally.  The
downstream `write_quote` is the out-of-scope collaborator and is modeled as
succeeding. -/
def Mc.process_msg_header (ty : Nat) (s : MCSession) (data : Bytes) :
    MCSession × MsgResult :=
  let body := pySlice data 0 (Mc.msgLenOf ty)
  match Mc.handler ty s body with
  | (s1, .error e) => (s1, .malformed e)
  | (s1, .ok (fields, fl)) =>
    match Mc.map_quote s1 fields fl with
    | .error e => (s1, .malformed e)
    | .ok (c, ts, entry) => (s1, .delivered c ts entry)

/-- Dispatching a list of (type, body) messages in order, keeping the session. -/
def Mc.run (s : MCSession) : List (Nat × Bytes) → MCSession
  | [] => s
  | (ty, body) :: rest => Mc.run (Mc.process_msg_header ty s body).1 rest

/-! ## Multicast framing: sequence blocks -/

/-- `parse_sequence_header`: `unpack("HBBI", data[0:8])`, i.e. little-endian
u16 length, two bytes, little-endian u32 sequence; anything but exactly 8
bytes raises struct.error, which the source converts to `(0, 0, 0, 0)`
(end of stream). -/
def parse_sequence_header (b : Bytes) : Nat × Nat × Nat × Nat :=
  if b.length = 8 then (u16at b 0, byteAt b 2, byteAt b 3, u32at b 4)
  else (0, 0, 0, 0)

/-- The trace of one sub-message inside a sequence block: its offset in the
buffer, the declared total length and type byte, the body slice handed on,
and the dispatch outcome (`none` when the type is not in the catalog). -/
structure SubRec where
  off : Nat
  mlen : Nat
  mtype : Nat
  body : Bytes
  res : Option MsgResult
deriving DecidableEq

/-- The trace of one sequence block. -/
structure BlockRec where
  seqLen : Nat
  msgCount : Nat
  unit : Nat
  seq : Nat
  recs : List SubRec
deriving DecidableEq

/-- The inner loop of the multicast `parse`: for `count` iterations, set
`self.contract`, unpack a 1-byte length and 1-byte type at `offset`
(struct.error — uncaught in the source — if fewer than two bytes remain),
hand `data[offset+2 : offset+mlen]` to the dispatcher when the type is known,
and advance by `mlen` regardless. -/
def Mc.walkBlock (data : Bytes) (seq : Nat) :
    MCSession → Nat → Nat → Except String (List SubRec × MCSession)
  | s, _, 0 => .ok ([], s)
  | s, off, n + 1 =>
    if off + 2 ≤ data.length then
      let mlen := byteAt data off
      let mtype := byteAt data (off + 1)
      let body := pySlice data (off + 2) (off + mlen)
      let s0 := { s with contract := seq }
      let s1 := if Mc.known mtype then (Mc.process_msg_header mtype s0 body).1 else s0
      let out := if Mc.known mtype then some (Mc.process_msg_header mtype s0 body).2 else none
      match Mc.walkBlock data seq s1 (off + mlen) n with
      | .ok (recs, s2) => .ok (⟨off, mlen, mtype, body, out⟩ :: recs, s2)
      | .error e => .error e
    else .error "struct.error"

/-- The outer `while True` loop of the multicast `parse`, with explicit fuel.
Each pass either stops (zero/unparsable header) or consumes `seq_len ≥ 1`
bytes, so `data.length + 1` fuel is always sufficient; `Mc.parse` below
supplies it. -/
def Mc.parseGo : Nat → MCSession → Bytes → Except String (List BlockRec)
  | 0, _, _ => .ok []
  | fuel + 1, s, data =>
    match parse_sequence_header (pySlice data 0 8) with
    | (L, n, u, q) =>
      if L = 0 then .ok []
      else
        match Mc.walkBlock data q s 8 n with
        | .error e => .error e
        | .ok (recs, s1) =>
          match Mc.parseGo fuel s1 (data.drop L) with
          | .error e => .error e
          | .ok blocks => .ok (⟨L, n, u, q, recs⟩ :: blocks)

/-- The multicast `parse` entry point (`close_quotes` is the out-of-scope
downstream collaborator). -/
def Mc.parse (s : MCSession) (data : Bytes) : Except String (List BlockRec) :=
  Mc.parseGo (data.length + 1) s data

/-- Decidable well-formedness of a block region: each of `n` sub-messages has
its two header bytes in range, a declared length of at least 2, and its full
declared extent inside the buffer. -/
def blockOkB (data : Bytes) : Nat → Nat → Bool
  | _, 0 => true
  | off, n + 1 =>
    decide (off + 2 ≤ data.length) && decide (2 ≤ byteAt data off) &&
    decide (off + byteAt data off ≤ data.length) &&
    blockOkB data (off + byteAt data off) n

/-- The offset just past `n` sub-messages starting at `off`. -/
def blockEnd (data : Bytes) : Nat → Nat → Nat
  | off, 0 => off
  | off, n + 1 => blockEnd data (off + byteAt data off) n

/-- The declared length of the last of `n ≥ 1` sub-messages starting at `off`. -/
def blockLastMlen (data : Bytes) : Nat → Nat → Nat
  | _, 0 => 0
  | off, 1 => byteAt data off
  | off, n + 2 => blockLastMlen data (off + byteAt data off) (n + 1)

/-- The sub-message offsets recorded by `Mc.walkBlock` chain from `cur` by
the declared lengths. -/
def offsetChainFrom : Nat → List SubRec → Prop
  | _, [] => True
  | cur, r :: rest => r.off = cur ∧ offsetChainFrom (cur + r.mlen) rest

/-! ## Direct feed (src/bats/parser.py) -/

/-- Direct-feed message data is `str`. -/
abbrev Chars := List Char

/-- The numeric value of a digit string. -/
def digitsVal (cs : Chars) : Nat :=
  cs.foldl (fun a c => 10 * a + (c.toNat - 48)) 0

/-- `int()` applied to the sliced timestamp text.  (Python's `int` also
accepts signs and surrounding whitespace; the feed timestamps this parser
slices are plain digit runs, and anything else raises `ValueError`.) -/
def pyInt (cs : Chars) : Except String Nat :=
  if cs ≠ [] ∧ cs.all Char.isDigit then .ok (digitsVal cs) else .error "ValueError"

/-- A Python value as the direct-feed `@flag` wrapper receives it: an `int`
or a `str` (a list of codepoints) — the latter is the shape every
direct-feed call site passes, an index into a decoded line. -/
inductive PyArg where
  | pint : Nat → PyArg
  | pstr : Chars → PyArg
deriving DecidableEq

/-- The direct-feed `@flag` wrapper: it evaluates `func(chr(_flag))` inside
a `try/except Exception` that prints and returns `None` on any exception.
`chr` of an `int` below 0x110000 is the one-character string of that code
point, so the table body is consulted at that code point (an out-of-range
`int` raises `ValueError`, caught, `None`); `chr` of a `str` raises
`TypeError`, caught, `None` — and every call site in src/bats/parser.py
passes a one-character `str`, so there the wrapper returns `None` for every
code, documented or not. -/
def Bats.flagWrap (f : Nat → Option Nat) : PyArg → Option Nat
  | .pint n => if n < 1114112 then f n else none
  | .pstr _ => none

def Bats.market_mechanism : PyArg → Option Nat :=
  Bats.flagWrap (dictGetC market_mechanism_table none)

def Bats.trading_mode : PyArg → Option Nat :=
  Bats.flagWrap (dictGetC trading_mode_table none)

def Bats.transaction_category : PyArg → Option Nat :=
  Bats.flagWrap (dictGetC transaction_category_table none)

def Bats.negotiated_trade : PyArg → Option Nat :=
  Bats.flagWrap (dictGetC negotiated_trade_table (some 2))

def Bats.crossing_trade : PyArg → Option Nat :=
  Bats.flagWrap (dictGetC crossing_trade_table (some 2))

def Bats.modification_indicator : PyArg → Option Nat :=
  Bats.flagWrap (dictGetC modification_indicator_table (some 3))

def Bats.benchmark_indicator : PyArg → Option Nat :=
  Bats.flagWrap (dictGetC benchmark_indicator_table (some 2))

def Bats.ex_cum_dividend : PyArg → Option Nat :=
  Bats.flagWrap (dictGetC ex_cum_dividend_table (some 2))

def Bats.offbook_automated_indicator : PyArg → Option Nat :=
  Bats.flagWrap (dictGetC offbook_automated_indicator_table (some 3))

def Bats.publication_indicator : PyArg → Option Nat :=
  Bats.flagWrap (dictGetC publication_indicator_table (some 2))

/-- Python `.get` on an inline dict whose keys are one-character strings,
looked up with a `str` key (the direct-feed handlers index or slice the
decoded line, so the key is a `str`): it matches exactly when the key is the
one-character string of a documented code point, and falls back to the
default for any other string. -/
def strGetC (tbl : List (Nat × Nat)) (d : Option Nat) (s : Chars) : Option Nat :=
  match s with
  | [c] => dictGetC tbl d c.toNat
  | _ => d

/-- The inline statistic-type table of the direct-feed `msg_statistics`. -/
def bats_statistic_type_table : List (Nat × Nat) :=
  [('C'.toNat, 1), ('H'.toNat, 2), ('L'.toNat, 3), ('O'.toNat, 4), ('P'.toNat, 5)]

/-- The inline price-determination table of the direct-feed `msg_statistics`. -/
def bats_price_determination_table : List (Nat × Nat) :=
  [('0'.toNat, 1), ('1'.toNat, 2)]

/-- The inline auction-type table of the direct-feed auction handlers. -/
def bats_auction_type_table : List (Nat × Nat) :=
  [('O'.toNat, 1), ('C'.toNat, 2), ('H'.toNat, 3), ('V'.toNat, 4)]

/-- A value of the direct-feed field dictionaries: a sliced `str` field, a
flag-table result (`None` or an enumerant), or a `date_format` result (a
timestamp or `None`). -/
inductive PVal where
  | vstr : Chars → PVal
  | vnum : Option Nat → PVal
  | vtime : Option ℚ → PVal
deriving DecidableEq

/-- The field dictionary built by `get_fields`, with its `str` values. -/
def fieldsPV (fs : List (String × Chars)) : List (String × PVal) :=
  fs.map fun p => (p.1, PVal.vstr p.2)

/-- A dict assignment `fields[k] = v`: replace in place when the key exists,
else append, preserving insertion order as a Python dict does. -/
def dictSet (fs : List (String × PVal)) (k : String) (v : PVal) : List (String × PVal) :=
  if fs.any fun p => p.1 == k then fs.map fun p => if p.1 = k then (k, v) else p
  else fs ++ [(k, v)]

/-- `fields.update(new)`: assign each pair of `new` in order. -/
def dictUpdate (fs new : List (String × PVal)) : List (String × PVal) :=
  new.foldl (fun a p => dictSet a p.1 p.2) fs

/-- `del fields[k]`. -/
def dictDel (fs : List (String × PVal)) (k : String) : List (String × PVal) :=
  fs.filter fun p => p.1 != k

/-- `parse_order_execution_flag` (direct feed): the dict literal indexes
`data[0]`, `data[1]`, `data[2]` in order (an `IndexError` on a flags field
shorter than 3 characters propagates to the dispatch wrapper) and calls the
`@flag` decoders on the resulting one-character strings, so each stored
value is `None`. -/
def Bats.parse_order_execution_flag (d : Chars) : Except String (List (String × PVal)) :=
  match pyIndex d 0 with
  | .error e => .error e
  | .ok c0 =>
    match pyIndex d 1 with
    | .error e => .error e
    | .ok c1 =>
      match pyIndex d 2 with
      | .error e => .error e
      | .ok c2 => .ok
          [("market_mechanism", PVal.vnum (Bats.market_mechanism (.pstr [c0]))),
           ("trading_mode", PVal.vnum (Bats.trading_mode (.pstr [c1]))),
           ("excum_dividen", PVal.vnum (Bats.ex_cum_dividend (.pstr [c2])))]

/-- `parse_trade_flags` (direct feed): indexes `data[0]` through `data[3]`
and calls the `@flag` decoders on one-character strings (`None` always). -/
def Bats.parse_trade_flags (d : Chars) : Except String (List (String × PVal)) :=
  match pyIndex d 0 with
  | .error e => .error e
  | .ok c0 =>
    match pyIndex d 1 with
    | .error e => .error e
    | .ok c1 =>
      match pyIndex d 2 with
      | .error e => .error e
      | .ok c2 =>
        match pyIndex d 3 with
        | .error e => .error e
        | .ok c3 => .ok
            [("market_mechanism", PVal.vnum (Bats.market_mechanism (.pstr [c0]))),
             ("trading_mode", PVal.vnum (Bats.trading_mode (.pstr [c1]))),
             ("transaction_category", PVal.vnum (Bats.transaction_category (.pstr [c2]))),
             ("excum_dividen", PVal.vnum (Bats.ex_cum_dividend (.pstr [c3])))]

/-- `parse_trade_report_flags` (direct feed): indexes `data[0]` through
`data[9]` in the evaluation order of the dict literal.  The first entry is
the inline trade-timing `.get(data[0], 3)` — a `str`-keyed table looked up
with the one-character `str` `data[0]`, which therefore does match its
documented codes; every other entry goes through an `@flag` decoder on a
one-character `str` and stores `None`. -/
def Bats.parse_trade_report_flags (d : Chars) : Except String (List (String × PVal)) :=
  match pyIndex d 0 with
  | .error e => .error e
  | .ok c0 =>
    match pyIndex d 1 with
    | .error e => .error e
    | .ok c1 =>
      match pyIndex d 2 with
      | .error e => .error e
      | .ok c2 =>
        match pyIndex d 3 with
        | .error e => .error e
        | .ok c3 =>
          match pyIndex d 4 with
          | .error e => .error e
          | .ok c4 =>
            match pyIndex d 5 with
            | .error e => .error e
            | .ok c5 =>
              match pyIndex d 6 with
              | .error e => .error e
              | .ok c6 =>
                match pyIndex d 7 with
                | .error e => .error e
                | .ok c7 =>
                  match pyIndex d 8 with
                  | .error e => .error e
                  | .ok c8 =>
                    match pyIndex d 9 with
                    | .error e => .error e
                    | .ok c9 => .ok
                        [("trade_timing_indicator",
                          PVal.vnum (some (dictGetCD trade_timing_indicator_table 3 c0.toNat))),
                         ("market_mechanism", PVal.vnum (Bats.market_mechanism (.pstr [c0]))),
                         ("trading_mode", PVal.vnum (Bats.trading_mode (.pstr [c1]))),
                         ("transaction_category",
                          PVal.vnum (Bats.transaction_category (.pstr [c2]))),
                         ("negotiated_trade", PVal.vnum (Bats.negotiated_trade (.pstr [c3]))),
                         ("crossing_trade", PVal.vnum (Bats.crossing_trade (.pstr [c4]))),
                         ("modification_indicator",
                          PVal.vnum (Bats.modification_indicator (.pstr [c5]))),
                         ("benchmark_indicator",
                          PVal.vnum (Bats.benchmark_indicator (.pstr [c6]))),
                         ("excum_dividen", PVal.vnum (Bats.ex_cum_dividend (.pstr [c7]))),
                         ("publication_indicator",
                          PVal.vnum (Bats.publication_indicator (.pstr [c8]))),
                         ("offbook_automated_indicator",
                          PVal.vnum (Bats.offbook_automated_indicator (.pstr [c9])))]

/-- The numeric value of an ASCII digit character. -/
def chDigit (c : Char) : Nat := c.toNat - 48

/-- Gregorian leap year, as `datetime` uses. -/
def isLeap (y : Nat) : Bool := y % 4 == 0 && (y % 100 != 0 || y % 400 == 0)

/-- Days in a month of the proleptic Gregorian calendar. -/
def daysInMonth (y m : Nat) : Nat :=
  if m = 2 then (if isLeap y then 29 else 28)
  else if m = 4 ∨ m = 6 ∨ m = 9 ∨ m = 11 then 30
  else 31

/-- Days before the first of month `m` in a non-leap year. -/
def daysBeforeMonth (m : Nat) : Nat :=
  [0, 31, 59, 90, 120, 151, 181, 212, 243, 273, 304, 334].getD (m - 1) 0

/-- `date(y, m, d).toordinal()`: the proleptic-Gregorian day number with
0001-01-01 as day 1. -/
def gregOrdinal (y m d : Nat) : Nat :=
  365 * (y - 1) + (y - 1) / 4 - (y - 1) / 100 + (y - 1) / 400 +
    daysBeforeMonth m + (if 2 < m ∧ isLeap y then 1 else 0) + d

/-- `mktime(....timetuple())` of a midnight time tuple: seconds since the
1970 epoch (ordinal 719163) of that local midnight; the platform local-time
offset is immaterial to every statement made here. -/
def mkMidnight (y m d : Nat) : ℚ :=
  (((gregOrdinal y m d : ℤ) - 719163) * 86400 : ℤ)

/-- CPython strptime month pattern, two-digit alternatives `1[0-2]|0[1-9]`
at the head of `r` (the wire format carries ASCII digits, over which the
character classes are modeled). -/
def m2Match : Chars → Option Nat
  | c0 :: c1 :: _ =>
    if c0 = '1' ∧ '0' ≤ c1 ∧ c1 ≤ '2' then some (10 + chDigit c1)
    else if c0 = '0' ∧ '1' ≤ c1 ∧ c1 ≤ '9' then some (chDigit c1)
    else none
  | _ => none

/-- CPython strptime month pattern, one-digit alternative `[1-9]`. -/
def m1Match : Chars → Option Nat
  | c0 :: _ => if '1' ≤ c0 ∧ c0 ≤ '9' then some (chDigit c0) else none
  | _ => none

/-- CPython strptime day pattern, two-digit alternatives
`3[01]|[12]\d|0[1-9]`. -/
def d2Match : Chars → Option Nat
  | c0 :: c1 :: _ =>
    if c0 = '3' ∧ (c1 = '0' ∨ c1 = '1') then some (30 + chDigit c1)
    else if ('1' ≤ c0 ∧ c0 ≤ '2') ∧ c1.isDigit then some (10 * chDigit c0 + chDigit c1)
    else if c0 = '0' ∧ '1' ≤ c1 ∧ c1 ≤ '9' then some (chDigit c1)
    else none
  | _ => none

/-- CPython strptime day pattern, one-digit alternative `[1-9]`. -/
def d1Match : Chars → Option Nat
  | c0 :: _ => if '1' ≤ c0 ∧ c0 ≤ '9' then some (chDigit c0) else none
  | _ => none

/-- The backtracking order of the compiled `%m%d` pattern: the two-digit
month alternatives are tried before the one-digit one and, for each, the
two-digit day alternatives before the one-digit one; the first combination
whose patterns match wins, together with the number of characters it
consumed. -/
def matchMd (r : Chars) : Option (Nat × Nat × Nat) :=
  match m2Match r with
  | some m =>
    match d2Match (r.drop 2) with
    | some d => some (m, d, 4)
    | none =>
      match d1Match (r.drop 2) with
      | some d => some (m, d, 3)
      | none =>
        match m1Match r with
        | some m1 =>
          match d2Match (r.drop 1) with
          | some d => some (m1, d, 3)
          | none =>
            match d1Match (r.drop 1) with
            | some d => some (m1, d, 2)
            | none => none
        | none => none
  | none =>
    match m1Match r with
    | some m1 =>
      match d2Match (r.drop 1) with
      | some d => some (m1, d, 3)
      | none =>
        match d1Match (r.drop 1) with
        | some d => some (m1, d, 2)
        | none => none
    | none => none

/-- `datetime.strptime(s, "%Y%m%d")`: four digits of year, then the `%m%d`
match in backtracking order, the unconverted-data check (the match must
consume the whole string), and the calendar validation of the `datetime`
constructor (year at least 1; the day must exist in the month).  Any
failure raises `ValueError`. -/
def strptimeYmd (s : Chars) : Except String (Nat × Nat × Nat) :=
  if (s.take 4).length = 4 ∧ (s.take 4).all Char.isDigit then
    match matchMd (s.drop 4) with
    | none => .error "ValueError"
    | some (m, d, consumed) =>
      if 4 + consumed = s.length ∧ 1 ≤ digitsVal (s.take 4) ∧
          d ≤ daysInMonth (digitsVal (s.take 4)) m
      then .ok (digitsVal (s.take 4), m, d)
      else .error "ValueError"
  else .error "ValueError"

/-- `date_format`: `datetime.fromtimestamp` inside `except (IndexError,
ValueError)`, so an out-of-range stamp yields `None` instead of raising. -/
def Bats.date_format (q : ℚ) : Option ℚ := pyFromTimestamp q

/-- `msg_clear` (direct feed): field extraction only; never raises. -/
def Bats.msg_clear (d : Chars) : Except String (List (String × PVal)) :=
  .ok (fieldsPV (get_fields d bats_clear_names 0))

def Bats.msg_add_order (d : Chars) : Except String (List (String × PVal)) :=
  .ok (fieldsPV (get_fields d bats_add_order_names 0))

def Bats.msg_add_order_long (d : Chars) : Except String (List (String × PVal)) :=
  .ok (fieldsPV (get_fields d bats_add_order_long_names 0))

def Bats.msg_add_order_exp (d : Chars) : Except String (List (String × PVal)) :=
  .ok (fieldsPV (get_fields d bats_add_order_exp_names 0))

/-- `msg_order_executed`: extraction, then the execution-flag dict parsed
from the 3-byte `flags` field is merged and `flags` deleted. -/
def Bats.msg_order_executed (d : Chars) : Except String (List (String × PVal)) :=
  let raw := get_fields d bats_order_executed_names 0
  match fieldsFind raw "flags" with
  | none => .error "KeyError: flags"
  | some fl =>
    match Bats.parse_order_execution_flag fl with
    | .error e => .error e
    | .ok upd => .ok (dictDel (dictUpdate (fieldsPV raw) upd) "flags")

def Bats.msg_order_executed_long (d : Chars) : Except String (List (String × PVal)) :=
  let raw := get_fields d bats_order_executed_long_names 0
  match fieldsFind raw "flags" with
  | none => .error "KeyError: flags"
  | some fl =>
    match Bats.parse_order_execution_flag fl with
    | .error e => .error e
    | .ok upd => .ok (dictDel (dictUpdate (fieldsPV raw) upd) "flags")

def Bats.msg_order_cancel (d : Chars) : Except String (List (String × PVal)) :=
  .ok (fieldsPV (get_fields d bats_order_cancel_names 0))

def Bats.msg_order_cancel_long (d : Chars) : Except String (List (String × PVal)) :=
  .ok (fieldsPV (get_fields d bats_order_cancel_long_names 0))

/-- `msg_trade` / `msg_trade_long`: like the executed-order handlers, with
the 4-byte trade-flags field. -/
def Bats.msg_trade (d : Chars) : Except String (List (String × PVal)) :=
  let raw := get_fields d bats_trade_names 0
  match fieldsFind raw "flags" with
  | none => .error "KeyError: flags"
  | some fl =>
    match Bats.parse_trade_flags fl with
    | .error e => .error e
    | .ok upd => .ok (dictDel (dictUpdate (fieldsPV raw) upd) "flags")

def Bats.msg_trade_long (d : Chars) : Except String (List (String × PVal)) :=
  let raw := get_fields d bats_trade_long_names 0
  match fieldsFind raw "flags" with
  | none => .error "KeyError: flags"
  | some fl =>
    match Bats.parse_trade_flags fl with
    | .error e => .error e
    | .ok upd => .ok (dictDel (dictUpdate (fieldsPV raw) upd) "flags")

def Bats.msg_trade_break (d : Chars) : Except String (List (String × PVal)) :=
  .ok (fieldsPV (get_fields d bats_trade_break_names 0))

/-- `msg_trade_report`: extraction, then `strptime` of the 8-byte date (its
`ValueError` propagates), `int` of the 8-byte time (`ValueError` on
non-digits propagates), the caught `date_format` of their sum stored as
`tradetime`, deletion of `date` and `time`, then the 11-byte flags field
parsed (its `IndexError` propagates) and merged, and `flags` deleted. -/
def Bats.msg_trade_report (d : Chars) : Except String (List (String × PVal)) :=
  let raw := get_fields d bats_trade_report_names 0
  match fieldsFind raw "date" with
  | none => .error "KeyError: date"
  | some ds =>
    match strptimeYmd ds with
    | .error e => .error e
    | .ok (y, mo, dd) =>
      match fieldsFind raw "time" with
      | none => .error "KeyError: time"
      | some tstr =>
        match pyInt tstr with
        | .error e => .error e
        | .ok t =>
          let f1 := dictSet (fieldsPV raw) "tradetime"
            (PVal.vtime (Bats.date_format (mkMidnight y mo dd + (t : ℚ))))
          let f2 := dictDel (dictDel f1 "date") "time"
          match fieldsFind raw "flags" with
          | none => .error "KeyError: flags"
          | some fl =>
            match Bats.parse_trade_report_flags fl with
            | .error e => .error e
            | .ok upd => .ok (dictDel (dictUpdate f2 upd) "flags")

/-- `msg_trading_status` (direct feed): builds the field dictionary for its
layout, then evaluates `fields['pitch_trading_status']` (inside the `.get`
call of the status table); that key is not among the layout names
(`pitch_symbol`, `pitch_status`, `pitch_reserved`), so the subscript raises
`KeyError` on every input.  The ok-arm is unreachable and returns the fields
unchanged. -/
def Bats.msg_trading_status (body : Chars) : Except String (List (String × Chars)) :=
  let fields := get_fields body bats_trading_status_names 0
  match fieldsGet fields "pitch_trading_status" with
  | .ok _ => .ok fields
  | .error e => .error e

/-- `msg_statistics`: extraction, then the two inline tables applied to the
one-character `pitch_statistic_type` and `pitch_price_determination` fields
(one-argument `.get`: default `None`); never raises. -/
def Bats.msg_statistics (d : Chars) : Except String (List (String × PVal)) :=
  let raw := get_fields d bats_statistics_names 0
  match fieldsFind raw "pitch_statistic_type" with
  | none => .error "KeyError: pitch_statistic_type"
  | some st =>
    match fieldsFind raw "pitch_price_determination" with
    | none => .error "KeyError: pitch_price_determination"
    | some pd =>
      .ok (dictSet
        (dictSet (fieldsPV raw) "pitch_statistic_type"
          (PVal.vnum (strGetC bats_statistic_type_table none st)))
        "pitch_price_determination"
        (PVal.vnum (strGetC bats_price_determination_table none pd)))

/-- `msg_auction_update` (direct feed): the inline auction-type table
applied to the one-character field; never raises. -/
def Bats.msg_auction_update (d : Chars) : Except String (List (String × PVal)) :=
  let raw := get_fields d bats_auction_update_names 0
  match fieldsFind raw "pitch_auction_type" with
  | none => .error "KeyError: pitch_auction_type"
  | some at0 =>
    .ok (dictSet (fieldsPV raw) "pitch_auction_type"
      (PVal.vnum (strGetC bats_auction_type_table none at0)))

/-- `msg_auction_summary` (direct feed): as `msg_auction_update`, over its
own layout. -/
def Bats.msg_auction_summary (d : Chars) : Except String (List (String × PVal)) :=
  let raw := get_fields d bats_auction_summary_names 0
  match fieldsFind raw "pitch_auction_type" with
  | none => .error "KeyError: pitch_auction_type"
  | some at0 =>
    .ok (dictSet (fieldsPV raw) "pitch_auction_type"
      (PVal.vnum (strGetC bats_auction_type_table none at0)))

/-- The direct-feed `process_msg_header` wrapper around each handler.  On
handler success the stub `map_quote` returns `("", 0, "", "")` and the
downstream `write_quote` collaborator (outside the parser core) is modeled
as succeeding, so the wrapper returns `data[msg_len:]`.  When the handler
raises, the except block evaluates `self.to_bstr(...)` in its logging call —
but src/bats/parser.py defines no `to_bstr` anywhere (only the multicast
module does), so the logging line itself raises `AttributeError`, which
propagates uncaught out of the wrapper. -/
def Bats.process_msg_header {α : Type} (msgLen : Nat)
    (handler : Chars → Except String α) (data : Chars) :
    Except String Chars :=
  match handler (pySlice data 0 msgLen) with
  | .ok _ => .ok (data.drop msgLen)
  | .error _ => .error "AttributeError: to_bstr"

/-- The `self.types` dispatch dictionary built in the direct-feed
`__init__`: each one-character type code maps to its
`process_msg_header`-wrapped handler. -/
def Bats.types (c : Char) : Option (Chars → Except String Chars) :=
  if c = 's' then some (Bats.process_msg_header 8 Bats.msg_clear)
  else if c = 'A' then some (Bats.process_msg_header 45 Bats.msg_add_order)
  else if c = 'c' then some (Bats.process_msg_header 60 Bats.msg_add_order_long)
  else if c = 't' then some (Bats.process_msg_header 64 Bats.msg_add_order_exp)
  else if c = 'E' then some (Bats.process_msg_header 42 Bats.msg_order_executed)
  else if c = 'e' then some (Bats.process_msg_header 46 Bats.msg_order_executed_long)
  else if c = 'X' then some (Bats.process_msg_header 27 Bats.msg_order_cancel)
  else if c = 'x' then some (Bats.process_msg_header 31 Bats.msg_order_cancel_long)
  else if c = 'P' then some (Bats.process_msg_header 60 Bats.msg_trade)
  else if c = 'q' then some (Bats.process_msg_header 75 Bats.msg_trade_long)
  else if c = 'B' then some (Bats.process_msg_header 21 Bats.msg_trade_break)
  else if c = 'O' then some (Bats.process_msg_header 94 Bats.msg_trade_report)
  else if c = 'H' then some (Bats.process_msg_header 21 Bats.msg_trading_status)
  else if c = 'Z' then some (Bats.process_msg_header 38 Bats.msg_statistics)
  else if c = 'k' then some (Bats.process_msg_header 76 Bats.msg_auction_update)
  else if c = 'j' then some (Bats.process_msg_header 47 Bats.msg_auction_summary)
  else none

/-- `m_type in self.types.keys()` for the direct feed. -/
def batsKnownChar (c : Char) : Bool := (Bats.types c).isSome

/-- Whether the dispatched wrapper completes on this type and body: `true`
for unknown types (nothing is dispatched) and for handlers that do not
raise; `false` exactly when the handler raises, in which case the wrapper's
broken except path aborts the whole parse. -/
def Bats.dispatchOk (c : Char) (body : Chars) : Bool :=
  match Bats.types c with
  | none => true
  | some h => (h body).isOk

/-- One dispatched direct-feed line: the parsed relative timestamp, the type
code the parser used, and the body handed to the handler. -/
structure BatsLineRec where
  ts : Nat
  ty : Char
  body : Chars
deriving DecidableEq

/-- One iteration of the direct-feed parse loop: skip an empty line;
otherwise strip one leading byte, `int(msg[0:7])` (uncaught `ValueError` on
non-digits), read `msg[8]` as the type (uncaught `IndexError` on a short
line); a known type is dispatched on `msg[9:]` through its wrapped handler —
whose broken error path (`AttributeError` on the missing `to_bstr`)
propagates when the handler raises — and an unknown type is silently
dropped. -/
def Bats.lineStep (line : Chars) : Except String (Option BatsLineRec) :=
  if line = [] then .ok none
  else
    let m := line.drop 1
    match pyInt (pySlice m 0 7) with
    | .error e => .error e
    | .ok ts =>
      match pyIndex m 8 with
      | .error e => .error e
      | .ok ty =>
        match Bats.types ty with
        | none => .ok none
        | some h =>
          match h (m.drop 9) with
          | .error e => .error e
          | .ok _ => .ok (some ⟨ts, ty, m.drop 9⟩)

/-- `data.split('\n')`: the segments between line feeds, including empty
segments, exactly as Python's `str.split` with an explicit separator. -/
def splitOnNl : Chars → List Chars
  | [] => [[]]
  | c :: rest =>
    let r := splitOnNl rest
    if c = '\n' then [] :: r
    else (c :: r.headD []) :: r.tail

/-- Folding `Bats.lineStep` over the split lines, collecting the dispatched
messages in order.  Line-level exceptions and a dispatched handler's
uncaught wrapper error abort the whole parse, as in the source, where they
are uncaught. -/
def Bats.parseTrace : List Chars → Except String (List BatsLineRec)
  | [] => .ok []
  | l :: rest =>
    match Bats.lineStep l with
    | .error e => .error e
    | .ok r0 =>
      match Bats.parseTrace rest with
      | .error e => .error e
      | .ok rs => .ok (match r0 with | some rr => rr :: rs | none => rs)

/-- The direct-feed `parse` entry point, at the framing level (`close_quotes`
is the out-of-scope downstream collaborator). -/
def Bats.parse (buffer : Chars) : Except String (List BatsLineRec) :=
  Bats.parseTrace (splitOnNl buffer)

/-- Modelled from the spec claim wording for the direct-feed framing: the
type code is read "at the position after the timestamp", i.e. at index 7 of
the marker-stripped line (the source reads index 8). -/
def specDirectTypeCode (line : Chars) : Option Char := (line.drop 1)[7]?

/-- A well-formed direct-feed wire line, used to state the framing theorem:
a marker byte, seven timestamp digits, the byte the parser skips, the type
code, and the body. -/
structure WireLine where
  marker : Char
  ts7 : Chars
  gapc : Char
  ty : Char
  body : Chars
deriving DecidableEq

/-- The characters of a wire line. -/
def WireLine.encode (w : WireLine) : Chars :=
  w.marker :: (w.ts7 ++ w.gapc :: w.ty :: w.body)

/-- Wire-line well-formedness for the framing theorem: exactly seven digits
of timestamp, no line feed anywhere in the line, and the dispatched handler
(when the type is cataloged) completes, so the parse is not aborted by the
dispatcher's broken error path. -/
def WireLine.wf (w : WireLine) : Prop :=
  w.ts7.length = 7 ∧ (∀ c ∈ w.ts7, c.isDigit) ∧ w.marker ≠ '\n' ∧
  w.gapc ≠ '\n' ∧ w.ty ≠ '\n' ∧ '\n' ∉ w.body ∧
  Bats.dispatchOk w.ty w.body = true

/-- A newline-terminated buffer carrying the given wire lines. -/
def encodeBuffer (ws : List WireLine) : Chars :=
  (ws.map (fun w => w.encode ++ ['\n'])).flatten

/-! ## Concrete inputs used in witnesses and counterexamples -/

/-- A three-message sequence block: a Time message, a Delete Order message,
and a message of unknown type 0x99; `seq_len = 27`, `count = 3`. -/
def c5Data : Bytes :=
  [27, 0, 3, 0, 0, 0, 0, 0,
   4, 0x20, 16, 14,
   12, 0x29, 0, 0, 0, 0, 0, 0, 0, 0, 0, 0,
   3, 0x99, 7]

/-- A tight two-message block (`seq_len = 29 = length`): a Time message with
base 3600 and a Delete Order message whose body starts with offset 500. -/
def c8Data : Bytes :=
  [29, 0, 2, 0, 0, 0, 0, 0,
   6, 0x20, 16, 14, 0, 0,
   15, 0x29, 244, 1, 0, 0, 1, 2, 3, 4, 5, 6, 7, 8, 9]

/-- A block whose single sub-message is a bare 2-byte header, truncated by
one byte: only the length byte `2` remains after the block header. -/
def c8TruncTiny : Bytes := [10, 0, 1, 0, 0, 0, 0, 0, 2]

/-- A fresh multicast session with midnight 0. -/
def s0 : MCSession := { midnight := 0 }

/-- The direct-feed line of the C7 counterexample: after stripping the
marker `S`, the seven timestamp digits are followed by `H` (index 7, the
byte the spec wording designates) and `j` (index 8, the byte the code
reads); the dispatched `j` handler (auction summary) completes on the empty
body. -/
def c7Line : Chars := ['S', '0', '0', '0', '0', '0', '1', '0', 'H', 'j']

/-- The ten-byte block whose truncation produces `c8TruncTiny`: its single
sub-message is a bare 2-byte header (length 2, type 0x20). -/
def c8TinyFull : Bytes := [10, 0, 1, 0, 0, 0, 0, 0, 2, 0x20]

/-- What it means for a direct-feed `@flag` decoder to realize a code table
with a fixed fallback: documented integer codes map to their enumerant,
undocumented integer codes to the fallback (`none` for Python's implicit
`None`), and every `str` argument — the shape all direct-feed call sites
pass — to `None`. -/
def DirectFlagSpec (f : PyArg → Option Nat) (tbl : List (Nat × Nat)) (d : Option Nat) : Prop :=
  (∀ k v, (k, v) ∈ tbl → f (.pint k) = some v) ∧
  (∀ n : Nat, n < 1114112 → (tbl.all fun p => p.1 != n) = true → f (.pint n) = d) ∧
  (∀ s : Chars, f (.pstr s) = none)

/-- What it means for a direct-feed inline `.get` table to realize its code
table: documented one-character keys map to their enumerant, undocumented
characters and keys of any other length to the default. -/
def StrTableSpec (tbl : List (Nat × Nat)) (d : Option Nat) : Prop :=
  (∀ k v, (k, v) ∈ tbl → ∀ c : Char, c.toNat = k → strGetC tbl d [c] = some v) ∧
  (∀ c : Char, (tbl.all fun p => p.1 != c.toNat) = true → strGetC tbl d [c] = d) ∧
  (∀ s : Chars, s.length ≠ 1 → strGetC tbl d s = d)

/-- What it means for a multicast `@flag` store to realize a code table:
documented codes leave their enumerant in the target bitfield of a fresh
`Flags` value, undocumented codes leave the default 0. -/
def McFlagSpec (store : FlagsState → Byte → FlagsState) (read : FlagsState → Nat)
    (tbl : List (Nat × Nat)) : Prop :=
  (∀ k v, (k, v) ∈ tbl → ∀ b : Byte, b.val = k → read (store {} b) = v) ∧
  (∀ b : Byte, (tbl.all fun p => p.1 != b.val) = true → read (store {} b) = 0)

/-- A well-formed wire line used to instantiate the framing theorem: marker
`S`, timestamp digits `0000010`, skipped byte `0`, type `s` (clear), body
`AB`. -/
def c7WitnessLine : WireLine :=
  { marker := 'S', ts7 := ['0', '0', '0', '0', '0', '1', '0'], gapc := '0',
    ty := 's', body := ['A', 'B'] }

deriving instance DecidableEq for Except

/-! ## Helper lemmas -/

theorem dictGetC_mem (tbl : List (Nat × Nat)) (d : Option Nat) (k v : Nat)
    (hnd : (tbl.map Prod.fst).Nodup) (hm : (k, v) ∈ tbl) :
    dictGetC tbl d k = some v := by
  induction tbl with
  | nil => cases hm
  | cons p rest ih =>
    obtain ⟨k0, v0⟩ := p
    simp only [List.map_cons, List.nodup_cons] at hnd
    rcases List.mem_cons.mp hm with h | h
    · cases h
      simp [dictGetC]
    · have hne : k0 ≠ k := by
        intro he
        subst he
        exact hnd.1 (List.mem_map_of_mem Prod.fst h)
      simp only [dictGetC, if_neg hne]
      exact ih hnd.2 h

theorem dictGetC_default (tbl : List (Nat × Nat)) (d : Option Nat) (k : Nat)
    (hk : ∀ v, (k, v) ∉ tbl) : dictGetC tbl d k = d := by
  induction tbl with
  | nil => rfl
  | cons p rest ih =>
    obtain ⟨k0, v0⟩ := p
    have hne : k0 ≠ k := by
      intro he
      exact hk v0 (by simp [he])
    simp only [dictGetC, if_neg hne]
    exact ih fun v hv => hk v (List.mem_cons_of_mem _ hv)

theorem not_mem_of_all_keys_ne {tbl : List (Nat × Nat)} {k : Nat}
    (h : (tbl.all fun p => p.1 != k) = true) : ∀ v, (k, v) ∉ tbl := by
  intro v hv
  have hh := List.all_eq_true.mp h _ hv
  simp at hh

theorem flagWrap_spec (tbl : List (Nat × Nat)) (d : Option Nat)
    (hnd : (tbl.map Prod.fst).Nodup) (hlt : ∀ p ∈ tbl, p.1 < 1114112) :
    DirectFlagSpec (Bats.flagWrap (dictGetC tbl d)) tbl d := by
  refine ⟨?_, ?_, fun s => rfl⟩
  · intro k v hm
    have hk : k < 1114112 := hlt (k, v) hm
    simp only [Bats.flagWrap]
    rw [if_pos hk]
    exact dictGetC_mem tbl d k v hnd hm
  · intro n hn hall
    simp only [Bats.flagWrap]
    rw [if_pos hn]
    exact dictGetC_default tbl d n (not_mem_of_all_keys_ne hall)

theorem strGetC_spec (tbl : List (Nat × Nat)) (d : Option Nat)
    (hnd : (tbl.map Prod.fst).Nodup) : StrTableSpec tbl d := by
  refine ⟨?_, ?_, ?_⟩
  · intro k v hm c hc
    show dictGetC tbl d c.toNat = some v
    rw [hc]
    exact dictGetC_mem tbl d k v hnd hm
  · intro c hall
    show dictGetC tbl d c.toNat = d
    exact dictGetC_default tbl d c.toNat (not_mem_of_all_keys_ne hall)
  · intro s hs
    cases s with
    | nil => rfl
    | cons a t =>
      cases t with
      | nil => simp at hs
      | cons b t2 => rfl

theorem batsPoef_vals (d : Chars) (fs : List (String × PVal))
    (h : Bats.parse_order_execution_flag d = .ok fs) :
    ∀ p ∈ fs, p.2 = PVal.vnum none := by
  unfold Bats.parse_order_execution_flag at h
  repeat' split at h
  all_goals first
    | (obtain rfl := Except.ok.inj h
       intro p hp
       simp only [List.mem_cons, List.not_mem_nil, or_false] at hp
       rcases hp with rfl | rfl | rfl
       all_goals rfl)
    | simp at h

theorem batsPtf_vals (d : Chars) (fs : List (String × PVal))
    (h : Bats.parse_trade_flags d = .ok fs) :
    ∀ p ∈ fs, p.2 = PVal.vnum none := by
  unfold Bats.parse_trade_flags at h
  repeat' split at h
  all_goals first
    | (obtain rfl := Except.ok.inj h
       intro p hp
       simp only [List.mem_cons, List.not_mem_nil, or_false] at hp
       rcases hp with rfl | rfl | rfl | rfl
       all_goals rfl)
    | simp at h

theorem batsPtrf_vals (d : Chars) (fs : List (String × PVal))
    (h : Bats.parse_trade_report_flags d = .ok fs) :
    ∀ p ∈ fs, p.1 ≠ "trade_timing_indicator" → p.2 = PVal.vnum none := by
  unfold Bats.parse_trade_report_flags at h
  repeat' split at h
  all_goals first
    | (obtain rfl := Except.ok.inj h
       intro p hp hne
       simp only [List.mem_cons, List.not_mem_nil, or_false] at hp
       rcases hp with rfl | rfl | rfl | rfl | rfl | rfl | rfl | rfl | rfl | rfl | rfl
       · exact absurd rfl hne
       all_goals rfl)
    | simp at h

theorem mcStored_doc (tbl : List (Nat × Nat)) (m : Nat)
    (hnd : (tbl.map Prod.fst).Nodup) (hb : ∀ p ∈ tbl, p.2 < m)
    (k v : Nat) (hm : (k, v) ∈ tbl) (b : Byte) (hbv : b.val = k) :
    dictGetCD tbl 0 (chrNat b) % m = v := by
  have h := dictGetC_mem tbl none k v hnd hm
  simp [dictGetCD, chrNat, hbv, h, Nat.mod_eq_of_lt (hb _ hm)]

theorem mcStored_dflt (tbl : List (Nat × Nat)) (m : Nat) (b : Byte)
    (hk : ∀ v, (b.val, v) ∉ tbl) :
    dictGetCD tbl 0 (chrNat b) % m = 0 := by
  simp [dictGetCD, chrNat, dictGetC_default tbl none b.val hk]

theorem dictGetPK_allStr_pbytes (tbl : List (PyKey × Nat))
    (h : (tbl.all fun p => p.1.isStr) = true) (bl : List Nat) :
    dictGetPK tbl none (.pbytes bl) = none := by
  induction tbl with
  | nil => rfl
  | cons p rest ih =>
    simp only [List.all_cons, Bool.and_eq_true] at h
    obtain ⟨k, v⟩ := p
    cases k with
    | pstr s =>
      simp only [dictGetPK]
      rw [if_neg (by simp)]
      exact ih h.2
    | pbytes s => simp [PyKey.isStr] at h

theorem dictGetPKD_bytes_default (tbl : List (PyKey × Nat)) (d : Nat)
    (h : (tbl.all fun p => p.1.isStr) = true) (b : Bytes) :
    dictGetPKD tbl d (bytesKey b) = d := by
  simp [dictGetPKD, bytesKey, dictGetPK_allStr_pbytes tbl h]

theorem mcFlag_mm_spec :
    McFlagSpec Mc.market_mechanism (fun f => f.market_mechanism) market_mechanism_table := by
  refine ⟨fun k v hm b hb => ?_, fun b hb => ?_⟩
  · exact mcStored_doc _ 8 (by decide) (by decide) k v hm b hb
  · exact mcStored_dflt _ 8 b (not_mem_of_all_keys_ne hb)

theorem mcFlag_tm_spec :
    McFlagSpec Mc.trading_mode (fun f => f.trading_mode) trading_mode_table := by
  refine ⟨fun k v hm b hb => ?_, fun b hb => ?_⟩
  · exact mcStored_doc _ 16 (by decide) (by decide) k v hm b hb
  · exact mcStored_dflt _ 16 b (not_mem_of_all_keys_ne hb)

theorem mcFlag_tc_spec :
    McFlagSpec Mc.transaction_category (fun f => f.transaction_category) transaction_category_table := by
  refine ⟨fun k v hm b hb => ?_, fun b hb => ?_⟩
  · exact mcStored_doc _ 8 (by decide) (by decide) k v hm b hb
  · exact mcStored_dflt _ 8 b (not_mem_of_all_keys_ne hb)

theorem mcFlag_nt_spec :
    McFlagSpec Mc.negotiated_trade (fun f => f.negotiated_trade) negotiated_trade_table := by
  refine ⟨fun k v hm b hb => ?_, fun b hb => ?_⟩
  · exact mcStored_doc _ 8 (by decide) (by decide) k v hm b hb
  · exact mcStored_dflt _ 8 b (not_mem_of_all_keys_ne hb)

theorem mcFlag_ct_spec :
    McFlagSpec Mc.crossing_trade (fun f => f.crossing_trade) crossing_trade_table := by
  refine ⟨fun k v hm b hb => ?_, fun b hb => ?_⟩
  · exact mcStored_doc _ 8 (by decide) (by decide) k v hm b hb
  · exact mcStored_dflt _ 8 b (not_mem_of_all_keys_ne hb)

theorem mcFlag_mi_spec :
    McFlagSpec Mc.modification_indicator (fun f => f.modification_indicator) modification_indicator_table := by
  refine ⟨fun k v hm b hb => ?_, fun b hb => ?_⟩
  · exact mcStored_doc _ 8 (by decide) (by decide) k v hm b hb
  · exact mcStored_dflt _ 8 b (not_mem_of_all_keys_ne hb)

theorem mcFlag_bi_spec :
    McFlagSpec Mc.benchmark_indicator (fun f => f.benchmark_indicator) benchmark_indicator_table := by
  refine ⟨fun k v hm b hb => ?_, fun b hb => ?_⟩
  · exact mcStored_doc _ 8 (by decide) (by decide) k v hm b hb
  · exact mcStored_dflt _ 8 b (not_mem_of_all_keys_ne hb)

theorem mcFlag_ecd_spec :
    McFlagSpec Mc.ex_cum_dividend (fun f => f.ex_cum_dividend) ex_cum_dividend_table := by
  refine ⟨fun k v hm b hb => ?_, fun b hb => ?_⟩
  · exact mcStored_doc _ 8 (by decide) (by decide) k v hm b hb
  · exact mcStored_dflt _ 8 b (not_mem_of_all_keys_ne hb)

theorem mcFlag_oai_spec :
    McFlagSpec Mc.offbook_automated_indicator (fun f => f.offbook_automated_indicator) offbook_automated_indicator_table := by
  refine ⟨fun k v hm b hb => ?_, fun b hb => ?_⟩
  · exact mcStored_doc _ 8 (by decide) (by decide) k v hm b hb
  · exact mcStored_dflt _ 8 b (not_mem_of_all_keys_ne hb)

theorem mcFlag_pi_spec :
    McFlagSpec Mc.publication_indicator (fun f => f.publication_indicator) publication_indicator_table := by
  refine ⟨fun k v hm b hb => ?_, fun b hb => ?_⟩
  · exact mcStored_doc _ 8 (by decide) (by decide) k v hm b hb
  · exact mcStored_dflt _ 8 b (not_mem_of_all_keys_ne hb)

theorem mcFlag_tti_spec :
    McFlagSpec Mc.trade_timing_indicator (fun f => f.trade_timing_indicator) trade_timing_indicator_table := by
  refine ⟨fun k v hm b hb => ?_, fun b hb => ?_⟩
  · exact mcStored_doc _ 8 (by decide) (by decide) k v hm b hb
  · exact mcStored_dflt _ 8 b (not_mem_of_all_keys_ne hb)

theorem mcTradingStatusValue_zero (v : Bytes) : mcTradingStatusValue v = 0 := by
  simp [mcTradingStatusValue, dictGetPKD_bytes_default mc_trading_status_table 0 (by decide) v]

/-! ## Claim theorems -/

/-- Claim C2, counterexample: the direct-feed add-order catalog entry
declares width 45 (the claim's own example) but its field widths sum to 36;
the declared width includes the 9-byte timestamp-and-type line head that the
parse loop has already consumed. -/
theorem C2_counterexample :
    batsAddOrderEntry ∈ batsCatalog ∧ batsAddOrderEntry.msgLen = 45 ∧
    sumWidths batsAddOrderEntry.layout = 36 ∧ (36 : Nat) ≠ 45 := by decide

/-- Claim C2 (amended): in the multicast catalog every entry's field widths
sum to its declared length EXCEPT `msg_trading_status` (fields sum to 16,
declared 21) and `msg_auction_summary` (fields sum to 25, declared 47); in
the direct-feed catalog only `msg_clear` satisfies the invariant, every
other entry's field widths sum to the declared length minus 9. -/
theorem C2_catalog_widths_amended :
    (mcCatalog.all fun e =>
      e.hname == "msg_trading_status" || e.hname == "msg_auction_summary" ||
        sumWidths e.layout == e.msgLen) = true ∧
    sumWidths mc_trading_status_names = 16 ∧
    sumWidths mc_auction_summary_names = 25 ∧
    (batsCatalog.all fun e =>
      if e.hname == "msg_clear" then sumWidths e.layout == e.msgLen
      else sumWidths e.layout + 9 == e.msgLen) = true := by decide

/-- Claim C9 (confirmed): the multicast Auction Update (0x95) and Auction
Summary (0x96) handlers read `fields['flags']`, but their layouts name that
byte `auction_type` and declare no field named `flags`, so on every input the
subscript raises `KeyError` and the dispatcher discards the message as
malformed. -/
theorem C9_auction_handlers_always_malformed (s : MCSession) (body : Bytes) :
    (Mc.process_msg_header 0x95 s body).2 = .malformed "KeyError: flags" ∧
    (Mc.process_msg_header 0x96 s body).2 = .malformed "KeyError: flags" ∧
    ("auction_type", 1) ∈ mc_auction_update_names ∧
    (mc_auction_update_names.all fun p => p.1 ≠ "flags") = true ∧
    ("auction_type", 1) ∈ mc_auction_summary_names ∧
    (mc_auction_summary_names.all fun p => p.1 ≠ "flags") = true := by
  refine ⟨?_, ?_, by decide, by decide, by decide, by decide⟩
  · simp [Mc.process_msg_header, Mc.handler, Mc.msg_auction_update,
      mc_auction_update_names, get_fields, fieldsGet, fieldsFind]
  · simp [Mc.process_msg_header, Mc.handler, Mc.msg_auction_summary,
      mc_auction_summary_names, get_fields, fieldsGet, fieldsFind]

/-- Claim C10, counterexample: for status code `H` the table documents
enumerant 9, whose claimed 3-bit store would be `9 % 8 = 1`; but the handler
looks the one-byte `bytes` slice up in a `str`-keyed table, so it stores the
default 0, not 1. -/
theorem C10_counterexample :
    (PyKey.pstr ['H'.toNat], 9) ∈ mc_trading_status_table ∧
    (9 % 8 : Nat) = 1 ∧
    mcTradingStatusValue [72] = 0 ∧ (0 : Nat) ≠ 1 := by decide

/-- Claim C10 (amended): the multicast trading-status store always leaves 0
in the 3-bit `trading_status` bitfield, for every input body — the lookup
key is a `bytes` slice and the table keys are `str`, so the `.get` default 0
is taken for every code and all statuses are indistinguishable.  The modulo-8
truncation the claim describes is real but only reachable on the `str` side
of the table: there `H` (9) and `T` (1) would indeed both store 1. -/
theorem C10_trading_status_stored_zero (s : MCSession) (body : Bytes) :
    (Mc.msg_trading_status s body).2 =
      .ok (get_fields body mc_trading_status_names 0, ({} : FlagsState)) ∧
    (∀ v : Bytes, mcTradingStatusValue v = 0) ∧
    dictGetPKD mc_trading_status_table 0 (.pstr ['H'.toNat]) % 8 = 1 ∧
    dictGetPKD mc_trading_status_table 0 (.pstr ['T'.toNat]) % 8 = 1 := by
  refine ⟨?_, mcTradingStatusValue_zero, by decide, by decide⟩
  simp [Mc.msg_trading_status, mc_trading_status_names, get_fields, fieldsGet,
    fieldsFind, mcTradingStatusValue_zero]

/-- Claim C4, counterexample: `T` is documented in the multicast
trading-status table with enumerant 1, yet decoding the one-byte field
`b'T'` yields 0, the default — a `bytes` key never matches the `str` keys. -/
theorem C4_counterexample :
    (PyKey.pstr ['T'.toNat], 1) ∈ mc_trading_status_table ∧
    mcTradingStatusValue [84] = 0 ∧ (0 : Nat) ≠ 1 := by decide

/-- Claim C4 (amended): the multicast `@flag` decoders store the documented
enumerant for documented byte codes and the default 0 for undocumented
ones, while the multicast inline `str`-keyed tables (login status, gap
status, trading status, statistics type, price determination, auction type)
are subscripted with one-byte `bytes` slices and so yield their default 0
for every code, documented or not.  The direct-feed `@flag` decoders
realize their tables — documented code to enumerant, undocumented code to
the `.get` default: `None` for `market_mechanism`, `trading_mode` and
`transaction_category`, 2 for `negotiated_trade`, `crossing_trade`,
`benchmark_indicator`, `ex_cum_dividend` and `publication_indicator`, 3 for
`modification_indicator` and `offbook_automated_indicator` — only on
integer codes, which no call site supplies: every direct-feed call site
passes a one-character `str`, on which `chr` raises `TypeError`, the
wrapper catches it, and the decoder returns `None` for every code, so all
`@flag`-decoded entries of the three direct-feed flag parsers are stored as
`None`.  The direct feed's inline tables do match their one-character `str`
keys: trade-timing with explicit default 3; statistic type, price
determination and auction type with no explicit default (`None`); and its
inline trading-status table is dead code, since the handler raises
`KeyError` before that lookup can run. -/
theorem C4_flag_tables_amended :
    DirectFlagSpec Bats.market_mechanism market_mechanism_table none ∧
    DirectFlagSpec Bats.trading_mode trading_mode_table none ∧
    DirectFlagSpec Bats.transaction_category transaction_category_table none ∧
    DirectFlagSpec Bats.negotiated_trade negotiated_trade_table (some 2) ∧
    DirectFlagSpec Bats.crossing_trade crossing_trade_table (some 2) ∧
    DirectFlagSpec Bats.modification_indicator modification_indicator_table (some 3) ∧
    DirectFlagSpec Bats.benchmark_indicator benchmark_indicator_table (some 2) ∧
    DirectFlagSpec Bats.ex_cum_dividend ex_cum_dividend_table (some 2) ∧
    DirectFlagSpec Bats.offbook_automated_indicator offbook_automated_indicator_table (some 3) ∧
    DirectFlagSpec Bats.publication_indicator publication_indicator_table (some 2) ∧
    (∀ d fs, Bats.parse_order_execution_flag d = .ok fs →
      ∀ p ∈ fs, p.2 = PVal.vnum none) ∧
    (∀ d fs, Bats.parse_trade_flags d = .ok fs →
      ∀ p ∈ fs, p.2 = PVal.vnum none) ∧
    (∀ d fs, Bats.parse_trade_report_flags d = .ok fs →
      ∀ p ∈ fs, p.1 ≠ "trade_timing_indicator" → p.2 = PVal.vnum none) ∧
    (∀ k v, (k, v) ∈ trade_timing_indicator_table → ∀ c : Char, c.toNat = k →
      dictGetCD trade_timing_indicator_table 3 c.toNat = v) ∧
    (∀ c : Char, (trade_timing_indicator_table.all fun p => p.1 != c.toNat) = true →
      dictGetCD trade_timing_indicator_table 3 c.toNat = 3) ∧
    StrTableSpec bats_statistic_type_table none ∧
    StrTableSpec bats_price_determination_table none ∧
    StrTableSpec bats_auction_type_table none ∧
    (∀ body : Chars,
      Bats.msg_trading_status body = .error "KeyError: pitch_trading_status") ∧
    McFlagSpec Mc.market_mechanism (fun f => f.market_mechanism) market_mechanism_table ∧
    McFlagSpec Mc.trading_mode (fun f => f.trading_mode) trading_mode_table ∧
    McFlagSpec Mc.transaction_category (fun f => f.transaction_category) transaction_category_table ∧
    McFlagSpec Mc.negotiated_trade (fun f => f.negotiated_trade) negotiated_trade_table ∧
    McFlagSpec Mc.crossing_trade (fun f => f.crossing_trade) crossing_trade_table ∧
    McFlagSpec Mc.modification_indicator (fun f => f.modification_indicator) modification_indicator_table ∧
    McFlagSpec Mc.benchmark_indicator (fun f => f.benchmark_indicator) benchmark_indicator_table ∧
    McFlagSpec Mc.ex_cum_dividend (fun f => f.ex_cum_dividend) ex_cum_dividend_table ∧
    McFlagSpec Mc.offbook_automated_indicator (fun f => f.offbook_automated_indicator) offbook_automated_indicator_table ∧
    McFlagSpec Mc.publication_indicator (fun f => f.publication_indicator) publication_indicator_table ∧
    McFlagSpec Mc.trade_timing_indicator (fun f => f.trade_timing_indicator) trade_timing_indicator_table ∧
    (∀ v : Bytes, dictGetPKD login_status_table 0 (bytesKey v) = 0) ∧
    (∀ v : Bytes, dictGetPKD gap_status_table 0 (bytesKey v) = 0) ∧
    (∀ v : Bytes, dictGetPKD mc_trading_status_table 0 (bytesKey v) = 0) ∧
    (∀ v : Bytes, dictGetPKD statistic_type_table 0 (bytesKey v) = 0) ∧
    (∀ v : Bytes, dictGetPKD price_determination_table 0 (bytesKey v) = 0) ∧
    (∀ v : Bytes, dictGetPKD auction_type_table 0 (bytesKey v) = 0) :=
  ⟨flagWrap_spec market_mechanism_table none (by decide) (by decide),
   flagWrap_spec trading_mode_table none (by decide) (by decide),
   flagWrap_spec transaction_category_table none (by decide) (by decide),
   flagWrap_spec negotiated_trade_table (some 2) (by decide) (by decide),
   flagWrap_spec crossing_trade_table (some 2) (by decide) (by decide),
   flagWrap_spec modification_indicator_table (some 3) (by decide) (by decide),
   flagWrap_spec benchmark_indicator_table (some 2) (by decide) (by decide),
   flagWrap_spec ex_cum_dividend_table (some 2) (by decide) (by decide),
   flagWrap_spec offbook_automated_indicator_table (some 3) (by decide) (by decide),
   flagWrap_spec publication_indicator_table (some 2) (by decide) (by decide),
   batsPoef_vals, batsPtf_vals, batsPtrf_vals,
   fun k v hm c hc => by
     rw [hc]
     simp [dictGetCD,
       dictGetC_mem trade_timing_indicator_table none k v (by decide) hm],
   fun c hall => by
     simp [dictGetCD, dictGetC_default trade_timing_indicator_table none c.toNat
       (not_mem_of_all_keys_ne hall)],
   strGetC_spec bats_statistic_type_table none (by decide),
   strGetC_spec bats_price_determination_table none (by decide),
   strGetC_spec bats_auction_type_table none (by decide),
   fun body => by
     simp [Bats.msg_trading_status, bats_trading_status_names, get_fields,
       fieldsGet, fieldsFind],
   mcFlag_mm_spec, mcFlag_tm_spec, mcFlag_tc_spec, mcFlag_nt_spec,
   mcFlag_ct_spec, mcFlag_mi_spec, mcFlag_bi_spec, mcFlag_ecd_spec,
   mcFlag_oai_spec, mcFlag_pi_spec, mcFlag_tti_spec,
   dictGetPKD_bytes_default _ 0 (by decide),
   dictGetPKD_bytes_default _ 0 (by decide),
   dictGetPKD_bytes_default _ 0 (by decide),
   dictGetPKD_bytes_default _ 0 (by decide),
   dictGetPKD_bytes_default _ 0 (by decide),
   dictGetPKD_bytes_default _ 0 (by decide)⟩

/-- Claim C4, witness: the amended statement at concrete codes — documented
direct-feed `A` maps to 1 under `modification_indicator` on an integer code
and undocumented 90 to the default 3, while the call-site shape (the
one-character str `A`) yields `None` even though documented; documented
multicast `O` stores 8 in `trading_mode`; the direct inline tables match
`C` (statistic type 1) and default on undocumented `Y` (auction type) and
match `1` (trade timing 1); and the documented multicast trading-status
byte `b'T'` still decodes to 0. -/
theorem C4_flag_tables_amended_witness :
    Bats.modification_indicator (.pint 65) = some 1 ∧
    Bats.modification_indicator (.pint 90) = some 3 ∧
    Bats.modification_indicator (.pstr ['A']) = none ∧
    (Mc.trading_mode {} 79).trading_mode = 8 ∧
    strGetC bats_statistic_type_table none ['C'] = some 1 ∧
    strGetC bats_auction_type_table none ['Y'] = none ∧
    dictGetCD trade_timing_indicator_table 3 ('1' : Char).toNat = 1 ∧
    dictGetPKD mc_trading_status_table 0 (bytesKey [84]) = 0 := by
  obtain ⟨_, _, _, _, _, h6, _, _, _, _, _, _, _, h14, _, h16, _, h18, _,
    _, h21, _, _, _, _, _, _, _, _, _, _, _, _, h33, _, _⟩ :=
    C4_flag_tables_amended
  exact ⟨h6.1 65 1 (by decide), h6.2.1 90 (by decide) (by decide),
    h6.2.2 ['A'], h21.1 79 8 (by decide) 79 (by decide),
    h16.1 67 1 (by decide) 'C' (by decide), h18.2.1 'Y' (by decide),
    h14 49 1 (by decide) '1' (by decide), h33 [84]⟩

/-- Claim C6, counterexample: no short-price field can decode to 1500.00 —
the field is a 2-byte unsigned integer, so its raw value is at most 65535
and the claim's raw value 150000 (= 1500 · 100) is unattainable. -/
theorem C6_counterexample : ¬ ∃ b : Bytes, mqPriceS b = .ok (1500 : ℚ) := by
  rintro ⟨b, hb⟩
  by_cases h : b.length = 2
  · have hb2 : mqPriceS b = .ok ((u16at b 0 : ℚ) / 100) := by
      simp [mqPriceS, u16le, h]
    rw [hb2] at hb
    have hv : ((u16at b 0 : ℚ) / 100) = 1500 := Except.ok.inj hb
    rw [div_eq_iff (by norm_num : (100 : ℚ) ≠ 0)] at hv
    have hv2 : ((u16at b 0 : Nat) : ℚ) = 150000 := by rw [hv]; norm_num
    have hn : u16at b 0 = 150000 := by exact_mod_cast hv2
    have h0 : byteAt b 0 < 256 := (b.getD 0 0).isLt
    have h1 : byteAt b (0 + 1) < 256 := (b.getD (0 + 1) 0).isLt
    unfold u16at at hn
    omega
  · have hb2 : mqPriceS b = .error "struct.error" := by
      simp [mqPriceS, u16le, h]
    rw [hb2] at hb
    exact Except.noConfusion hb

/-- Claim C6 (amended): short price fields decode as the raw little-endian
2-byte unsigned integer divided by 100 and long price fields as the raw
8-byte unsigned integer divided by 10000; a short-price raw value is at most
65535 (so raw 150000 is impossible; raw 15000 decodes to 150.00), and a
long-price raw value of 15000000 decodes to 1500.0000. -/
theorem C6_price_scaling_amended :
    (∀ b : Bytes, b.length = 2 → mqPriceS b = .ok ((u16at b 0 : ℚ) / 100)) ∧
    (∀ b : Bytes, b.length = 8 → mqPriceL b = .ok ((u64at b 0 : ℚ) / 10000)) ∧
    (∀ b : Bytes, u16at b 0 ≤ 65535) ∧
    u16at [0x98, 0x3A] 0 = 15000 ∧
    mqPriceS [0x98, 0x3A] = .ok (150 : ℚ) ∧
    u64at [0xC0, 0xE1, 0xE4, 0, 0, 0, 0, 0] 0 = 15000000 ∧
    mqPriceL [0xC0, 0xE1, 0xE4, 0, 0, 0, 0, 0] = .ok (1500 : ℚ) := by
  refine ⟨?_, ?_, ?_, by decide, ?_, by decide, ?_⟩
  · intro b h
    simp [mqPriceS, u16le, h]
  · intro b h
    simp [mqPriceL, u64le, h]
  · intro b
    have h0 : byteAt b 0 < 256 := (b.getD 0 0).isLt
    have h1 : byteAt b (0 + 1) < 256 := (b.getD (0 + 1) 0).isLt
    unfold u16at
    omega
  · have : u16at [0x98, 0x3A] 0 = 15000 := by decide
    simp [mqPriceS, u16le, this]
    norm_num
  · have : u64at [0xC0, 0xE1, 0xE4, 0, 0, 0, 0, 0] 0 = 15000000 := by decide
    simp [mqPriceL, u64le, this]
    norm_num

/-- Claim C6, witness: the amended statement evaluated at the two-byte field
`[1, 0]` and the eight-byte field `[1, 0, 0, 0, 0, 0, 0, 0]`. -/
theorem C6_price_scaling_amended_witness :
    mqPriceS [1, 0] = .ok ((u16at [1, 0] 0 : ℚ) / 100) ∧
    mqPriceL [1, 0, 0, 0, 0, 0, 0, 0] = .ok ((u64at [1, 0, 0, 0, 0, 0, 0, 0] 0 : ℚ) / 10000) :=
  ⟨C6_price_scaling_amended.1 [1, 0] (by decide),
   C6_price_scaling_amended.2.1 [1, 0, 0, 0, 0, 0, 0, 0] (by decide)⟩

/-- Claim C1 (code bug, direct-feed side): when a direct-feed handler raises
— as `msg_trading_status` does on every input, because it subscripts the
undeclared key `pitch_trading_status` — the dispatcher's except block itself
raises, since src/bats/parser.py defines no `to_bstr` on `Exchange` (only
the multicast module does); the `AttributeError` propagates uncaught instead
of the wrapper returning the input advanced by the declared width.  The
multicast wrapper, whose module does define `to_bstr`, conforms to the
claim. -/
theorem C1_bats_dispatch_error_path_raises (body : Chars) :
    Bats.process_msg_header 21 Bats.msg_trading_status body =
      .error "AttributeError: to_bstr" ∧
    (bats_trading_status_names.all fun p => p.1 != "pitch_trading_status") = true := by
  constructor
  · simp [Bats.process_msg_header, Bats.msg_trading_status,
      bats_trading_status_names, get_fields, fieldsGet, fieldsFind]
  · decide

/-! ## Session-state lemmas for the multicast dispatcher -/

theorem flagFieldHandler_fst (n : List (String × Nat))
    (pf : FlagsState → Bytes → Except String FlagsState) (s : MCSession) (b : Bytes) :
    (Mc.flagFieldHandler n pf s b).1 = s := by
  cases h : fieldsGet (get_fields b n 0) "flags" with
  | error e => simp [Mc.flagFieldHandler, h]
  | ok v =>
    cases h2 : pf {} v with
    | error e => simp [Mc.flagFieldHandler, h, h2]
    | ok f => simp [Mc.flagFieldHandler, h, h2]

theorem mc_login_response_fst (s : MCSession) (b : Bytes) :
    (Mc.msg_login_response s b).1 = s := by
  cases h : fieldsGet (get_fields b mc_login_response_names 0) "flags" with
  | error e => simp [Mc.msg_login_response, h]
  | ok v => simp [Mc.msg_login_response, h]

theorem mc_gap_response_fst (s : MCSession) (b : Bytes) :
    (Mc.msg_gap_response s b).1 = s := by
  cases h : fieldsGet (get_fields b mc_gap_response_names 0) "flags" with
  | error e => simp [Mc.msg_gap_response, h]
  | ok v => simp [Mc.msg_gap_response, h]

theorem mc_trading_status_fst (s : MCSession) (b : Bytes) :
    (Mc.msg_trading_status s b).1 = s := by
  cases h : fieldsGet (get_fields b mc_trading_status_names 0) "flags" with
  | error e => simp [Mc.msg_trading_status, h]
  | ok v => simp [Mc.msg_trading_status, h]

theorem mc_statistics_fst (s : MCSession) (b : Bytes) :
    (Mc.msg_statistics s b).1 = s := by
  cases h : fieldsGet (get_fields b mc_statistics_names 0) "flags" with
  | error e => simp [Mc.msg_statistics, h]
  | ok v =>
    cases h2 : fieldsGet (get_fields b mc_statistics_names 0) "price_determination" with
    | error e => simp [Mc.msg_statistics, h, h2]
    | ok v2 => simp [Mc.msg_statistics, h, h2]

theorem mc_auction_update_fst (s : MCSession) (b : Bytes) :
    (Mc.msg_auction_update s b).1 = s := by
  cases h : fieldsGet (get_fields b mc_auction_update_names 0) "flags" with
  | error e => simp [Mc.msg_auction_update, h]
  | ok v => simp [Mc.msg_auction_update, h]

theorem mc_auction_summary_fst (s : MCSession) (b : Bytes) :
    (Mc.msg_auction_summary s b).1 = s := by
  cases h : fieldsGet (get_fields b mc_auction_summary_names 0) "flags" with
  | error e => simp [Mc.msg_auction_summary, h]
  | ok v => simp [Mc.msg_auction_summary, h]

theorem mc_time_fst (s : MCSession) (b : Bytes) :
    (Mc.msg_time s b).1 =
      { s with pitchTime := some (pySlice b 0 (0 + 4)) } := by
  simp [Mc.msg_time, mc_time_names, get_fields, fieldsGet, fieldsFind]

theorem mcHandler_fst_of_ne_time (ty : Nat) (h : ty ≠ 0x20) (s : MCSession) (b : Bytes) :
    (Mc.handler ty s b).1 = s := by
  unfold Mc.handler
  by_cases e1 : ty = 0x01
  · rw [if_pos e1]
    rfl
  rw [if_neg e1]
  by_cases e2 : ty = 0x02
  · rw [if_pos e2]
    exact mc_login_response_fst s b
  rw [if_neg e2]
  by_cases e3 : ty = 0x03
  · rw [if_pos e3]
    rfl
  rw [if_neg e3]
  by_cases e4 : ty = 0x04
  · rw [if_pos e4]
    exact mc_gap_response_fst s b
  rw [if_neg e4]
  rw [if_neg h]
  by_cases e6 : ty = 0x97
  · rw [if_pos e6]
    rfl
  rw [if_neg e6]
  by_cases e7 : ty = 0x22
  · rw [if_pos e7]
    rfl
  rw [if_neg e7]
  by_cases e8 : ty = 0x40
  · rw [if_pos e8]
    rfl
  rw [if_neg e8]
  by_cases e9 : ty = 0x2f
  · rw [if_pos e9]
    rfl
  rw [if_neg e9]
  by_cases e10 : ty = 0x23
  · rw [if_pos e10]
    exact flagFieldHandler_fst _ _ s b
  rw [if_neg e10]
  by_cases e11 : ty = 0x24
  · rw [if_pos e11]
    exact flagFieldHandler_fst _ _ s b
  rw [if_neg e11]
  by_cases e12 : ty = 0x25
  · rw [if_pos e12]
    rfl
  rw [if_neg e12]
  by_cases e13 : ty = 0x26
  · rw [if_pos e13]
    rfl
  rw [if_neg e13]
  by_cases e14 : ty = 0x27
  · rw [if_pos e14]
    rfl
  rw [if_neg e14]
  by_cases e15 : ty = 0x28
  · rw [if_pos e15]
    rfl
  rw [if_neg e15]
  by_cases e16 : ty = 0x29
  · rw [if_pos e16]
    rfl
  rw [if_neg e16]
  by_cases e17 : ty = 0x2b
  · rw [if_pos e17]
    exact flagFieldHandler_fst _ _ s b
  rw [if_neg e17]
  by_cases e18 : ty = 0x41
  · rw [if_pos e18]
    exact flagFieldHandler_fst _ _ s b
  rw [if_neg e18]
  by_cases e19 : ty = 0x2c
  · rw [if_pos e19]
    rfl
  rw [if_neg e19]
  by_cases e20 : ty = 0x32
  · rw [if_pos e20]
    exact flagFieldHandler_fst _ _ s b
  rw [if_neg e20]
  by_cases e21 : ty = 0x2d
  · rw [if_pos e21]
    rfl
  rw [if_neg e21]
  by_cases e22 : ty = 0x31
  · rw [if_pos e22]
    exact mc_trading_status_fst s b
  rw [if_neg e22]
  by_cases e23 : ty = 0x34
  · rw [if_pos e23]
    exact mc_statistics_fst s b
  rw [if_neg e23]
  by_cases e24 : ty = 0x95
  · rw [if_pos e24]
    exact mc_auction_update_fst s b
  rw [if_neg e24]
  by_cases e25 : ty = 0x96
  · rw [if_pos e25]
    exact mc_auction_summary_fst s b
  rw [if_neg e25]

theorem mcHandler_time_eq : Mc.handler 0x20 = Mc.msg_time := by
  unfold Mc.handler
  norm_num

theorem mcHandler_midnight (ty : Nat) (s : MCSession) (b : Bytes) :
    (Mc.handler ty s b).1.midnight = s.midnight := by
  by_cases h : ty = 0x20
  · subst h
    rw [mcHandler_time_eq, mc_time_fst]
  · rw [mcHandler_fst_of_ne_time ty h]

theorem mcProcess_fst (ty : Nat) (s : MCSession) (d : Bytes) :
    (Mc.process_msg_header ty s d).1 =
      (Mc.handler ty s (pySlice d 0 (Mc.msgLenOf ty))).1 := by
  unfold Mc.process_msg_header
  cases h : Mc.handler ty s (pySlice d 0 (Mc.msgLenOf ty)) with
  | mk s1 r =>
    cases r with
    | error e => simp [h]
    | ok p =>
      obtain ⟨fields, fl⟩ := p
      cases h2 : Mc.map_quote s1 fields fl with
      | error e => simp [h, h2]
      | ok t =>
        obtain ⟨c, ts, entry⟩ := t
        simp [h, h2]

theorem mcProcess_pitchTime (ty : Nat) (h : ty ≠ 0x20) (s : MCSession) (d : Bytes) :
    (Mc.process_msg_header ty s d).1.pitchTime = s.pitchTime := by
  rw [mcProcess_fst, mcHandler_fst_of_ne_time ty h]

theorem mcProcess_midnight (ty : Nat) (s : MCSession) (d : Bytes) :
    (Mc.process_msg_header ty s d).1.midnight = s.midnight := by
  rw [mcProcess_fst, mcHandler_midnight]

theorem mcRun_pitchTime (msgs : List (Nat × Bytes)) :
    ∀ s : MCSession, (∀ m ∈ msgs, m.1 ≠ 0x20) →
      (Mc.run s msgs).pitchTime = s.pitchTime := by
  induction msgs with
  | nil => intro s _; rfl
  | cons m rest ih =>
    intro s hm
    obtain ⟨ty, body⟩ := m
    simp only [Mc.run]
    rw [ih _ fun x hx => hm x (List.mem_cons_of_mem _ hx)]
    exact mcProcess_pitchTime ty (hm (ty, body) (List.mem_cons_self _ _)) s body

theorem mcRun_midnight (msgs : List (Nat × Bytes)) :
    ∀ s : MCSession, (Mc.run s msgs).midnight = s.midnight := by
  induction msgs with
  | nil => intro s; rfl
  | cons m rest ih =>
    intro s
    obtain ⟨ty, body⟩ := m
    simp only [Mc.run]
    rw [ih]
    exact mcProcess_midnight ty s body

theorem mcTime_sets_base (s : MCSession) (tb : Bytes) (ht : tb.length = 4) :
    (Mc.process_msg_header 0x20 s tb).1 = { s with pitchTime := some tb } := by
  have hb : pySlice tb 0 4 = tb := by
    simp [pySlice, List.take_of_length_le (le_of_eq ht)]
  rw [mcProcess_fst]
  have hlen : Mc.msgLenOf 0x20 = 4 := by decide
  rw [hlen, hb, mcHandler_time_eq, mc_time_fst]
  simp [hb]

theorem mcGetTs_formula (s : MCSession) (t : Bytes) (ht : t.length = 4)
    (hp : s.pitchTime = some t)
    (fields : McFields) (ob : Bytes) (hob : ob.length = 4)
    (hf : fieldsFind fields "pitch_time_offset" = some ob) :
    Mc.get_ts s fields =
      .ok (.dt (pyFromTimestamp (s.midnight + (u32at t 0 : ℚ) + (u32at ob 0 : ℚ) / 1000))) := by
  simp [Mc.get_ts, hf, hp, u32le, ht, hob]

/-- Claim C3 (confirmed): once a Time message with 4-byte base `tb` has been
dispatched, the session stores the raw base, every subsequent non-Time
dispatch preserves it, and the resolved absolute timestamp of any subsequent
message carrying a 4-byte `pitch_time_offset` field `ob` equals
`midnight + u32(tb) + u32(ob)/1000` (the Time base is added in seconds, the
offset in milliseconds), provided the stamp lies in the representable
datetime window. -/
theorem C3_time_base_resolution
    (s : MCSession) (tb : Bytes) (ht : tb.length = 4)
    (rest : List (Nat × Bytes)) (hrest : ∀ m ∈ rest, m.1 ≠ 0x20)
    (fields : McFields) (ob : Bytes) (hob : ob.length = 4)
    (hf : fieldsFind fields "pitch_time_offset" = some ob)
    (hwin1 : -62135596800 ≤ s.midnight + (u32at tb 0 : ℚ) + (u32at ob 0 : ℚ) / 1000)
    (hwin2 : s.midnight + (u32at tb 0 : ℚ) + (u32at ob 0 : ℚ) / 1000 < 253402300800) :
    (Mc.process_msg_header 0x20 s tb).1.pitchTime = some tb ∧
    (Mc.run (Mc.process_msg_header 0x20 s tb).1 rest).pitchTime = some tb ∧
    Mc.get_ts (Mc.run (Mc.process_msg_header 0x20 s tb).1 rest) fields =
      .ok (.dt (some (s.midnight + (u32at tb 0 : ℚ) + (u32at ob 0 : ℚ) / 1000))) := by
  have h1 : (Mc.process_msg_header 0x20 s tb).1 = { s with pitchTime := some tb } :=
    mcTime_sets_base s tb ht
  have h2 : (Mc.run (Mc.process_msg_header 0x20 s tb).1 rest).pitchTime = some tb := by
    rw [mcRun_pitchTime rest _ hrest, h1]
  have h3 : (Mc.run (Mc.process_msg_header 0x20 s tb).1 rest).midnight = s.midnight := by
    rw [mcRun_midnight, h1]
  refine ⟨by rw [h1], h2, ?_⟩
  rw [mcGetTs_formula _ tb ht h2 fields ob hob hf, h3]
  simp [pyFromTimestamp, hwin1, hwin2]

/-- Claim C3, witness: with midnight 0, Time base bytes `[16, 14, 0, 0]`
(3600 seconds, i.e. 3600000 ms) and offset bytes `[244, 1, 0, 0]` (500 ms),
after an intervening Delete Order dispatch the resolved timestamp is
3600.5 seconds past midnight. -/
theorem C3_time_base_resolution_witness :
    Mc.get_ts (Mc.run (Mc.process_msg_header 0x20 s0 [16, 14, 0, 0]).1
        [(0x29, List.replicate 12 0)]) [("pitch_time_offset", [244, 1, 0, 0])] =
      .ok (.dt (some (s0.midnight + (u32at [16, 14, 0, 0] 0 : ℚ) + (u32at [244, 1, 0, 0] 0 : ℚ) / 1000))) ∧
    s0.midnight + (u32at [16, 14, 0, 0] 0 : ℚ) + (u32at [244, 1, 0, 0] 0 : ℚ) / 1000 = 7201 / 2 := by
  have h1 : u32at [16, 14, 0, 0] 0 = 3600 := by decide
  have h2 : u32at [244, 1, 0, 0] 0 = 500 := by decide
  constructor
  · exact (C3_time_base_resolution s0 [16, 14, 0, 0] (by decide)
      [(0x29, List.replicate 12 0)] (by decide)
      [("pitch_time_offset", [244, 1, 0, 0])] [244, 1, 0, 0] (by decide)
      (by decide) (by rw [h1, h2]; norm_num [s0]) (by rw [h1, h2]; norm_num [s0])).2.2
  · rw [h1, h2]
    norm_num [s0]

/-! ## Direct-feed framing lemmas -/

theorem splitOnNl_line (line rest : Chars) (h : '\n' ∉ line) :
    splitOnNl (line ++ '\n' :: rest) = line :: splitOnNl rest := by
  induction line with
  | nil => simp [splitOnNl]
  | cons c cs ih =>
    have hc : c ≠ '\n' := fun he => h (by simp [he])
    have hcs : '\n' ∉ cs := fun he => h (List.mem_cons_of_mem _ he)
    simp only [List.cons_append, splitOnNl, if_neg hc, List.append_eq]
    rw [ih hcs]
    simp

theorem encode_no_nl (w : WireLine) (hwf : w.wf) : '\n' ∉ w.encode := by
  obtain ⟨h7, hdig, hm, hg, ht, hb, _⟩ := hwf
  unfold WireLine.encode
  intro hmem
  simp only [List.mem_cons, List.mem_append] at hmem
  rcases hmem with h | h | h
  · exact hm h.symm
  · exact absurd (hdig _ h) (by decide)
  rcases h with h | h | h
  · exact hg h.symm
  · exact ht h.symm
  · exact hb h

theorem lineStep_encode (w : WireLine) (hwf : w.wf) :
    Bats.lineStep w.encode =
      .ok (if batsKnownChar w.ty then some ⟨digitsVal w.ts7, w.ty, w.body⟩ else none) := by
  obtain ⟨h7, hdig, hm, hg, ht, hb, hdisp⟩ := hwf
  unfold Bats.lineStep WireLine.encode
  rw [if_neg (by simp)]
  simp only [List.drop_succ_cons, List.drop_zero]
  have htake : pySlice (w.ts7 ++ w.gapc :: w.ty :: w.body) 0 7 = w.ts7 := by
    simp only [pySlice, List.drop_zero]
    rw [← h7]
    exact List.take_left w.ts7 _
  have hint : pyInt w.ts7 = .ok (digitsVal w.ts7) := by
    unfold pyInt
    rw [if_pos]
    constructor
    · intro he
      rw [he] at h7
      simp at h7
    · exact List.all_eq_true.mpr hdig
  rw [htake, hint]
  have hidx : pyIndex (w.ts7 ++ w.gapc :: w.ty :: w.body) 8 = .ok w.ty := by
    unfold pyIndex
    rw [List.getElem?_append_right (by omega : w.ts7.length ≤ 8), h7]
    simp
  rw [hidx]
  have hdrop : (w.ts7 ++ w.gapc :: w.ty :: w.body).drop 9 = w.body := by
    have hsplit : w.ts7 ++ w.gapc :: w.ty :: w.body =
        (w.ts7 ++ [w.gapc, w.ty]) ++ w.body := by simp
    rw [hsplit, List.drop_left' (by simp [h7])]
  rw [hdrop]
  unfold Bats.dispatchOk at hdisp
  cases hty : Bats.types w.ty with
  | none => simp [batsKnownChar, hty]
  | some hd =>
    rw [hty] at hdisp
    have hdisp2 : (hd w.body).isOk = true := hdisp
    cases hr : hd w.body with
    | error e =>
      rw [hr] at hdisp2
      exact Bool.noConfusion hdisp2
    | ok r =>
      simp [batsKnownChar, hty, hr]

/-- Claim C7 (amended): the direct-feed parse splits its buffer on line
feeds, skips the empty segment, strips one leading marker byte from each
line, parses the next seven bytes as a decimal relative timestamp, reads
the type code at index 8 of the marker-stripped line — one byte PAST the
end of the 7-byte timestamp, skipping index 7 — hands the bytes from index
9 on to that type's wrapped handler, and silently drops lines whose type
code is not in the catalog.  The trace covers buffers whose dispatched
handlers all complete: when a handler raises, the dispatcher's broken
except path aborts the whole parse instead, so later lines are never
reached. -/
theorem C7_direct_framing_amended (ws : List WireLine) (hwf : ∀ w ∈ ws, w.wf) :
    Bats.parse (encodeBuffer ws) =
      .ok (ws.filterMap fun w =>
        if batsKnownChar w.ty then some ⟨digitsVal w.ts7, w.ty, w.body⟩ else none) := by
  unfold Bats.parse
  induction ws with
  | nil => simp [encodeBuffer, splitOnNl, Bats.parseTrace, Bats.lineStep]
  | cons w rest ih =>
    have hw : w.wf := hwf w (List.mem_cons_self _ _)
    have hrest : ∀ x ∈ rest, x.wf := fun x hx => hwf x (List.mem_cons_of_mem _ hx)
    have hbuf : encodeBuffer (w :: rest) = w.encode ++ '\n' :: encodeBuffer rest := by
      simp [encodeBuffer]
    rw [hbuf, splitOnNl_line _ _ (encode_no_nl w hw)]
    simp only [Bats.parseTrace, lineStep_encode w hw, ih hrest, List.filterMap_cons]
    by_cases hk : batsKnownChar w.ty
    · simp [hk]
    · simp [hk]

/-- Claim C7, witness: the amended framing statement on a one-line buffer
carrying a Clear (`s`) message with timestamp digits `0000010` and body
`AB`, whose handler completes. -/
theorem C7_direct_framing_amended_witness :
    Bats.parse (encodeBuffer [c7WitnessLine]) =
      .ok ([c7WitnessLine].filterMap fun w =>
        if batsKnownChar w.ty then some ⟨digitsVal w.ts7, w.ty, w.body⟩ else none) :=
  C7_direct_framing_amended [c7WitnessLine] (by
    intro w hw
    rw [List.mem_singleton] at hw
    subst hw
    exact ⟨by decide, by decide, by decide, by decide, by decide, by decide,
      by decide⟩)

/-- Claim C7, counterexample: in the marker-stripped line `0000010Hj`, the
byte after the 7-byte timestamp (index 7) is `H`, but the parser dispatches
on index 8, reading type `j` — so the claim's "position after the
timestamp" does not describe the code; the dispatched auction-summary
handler completes and the line is framed with type `j`. -/
theorem C7_counterexample :
    Bats.parse (c7Line ++ ['\n']) = .ok [⟨10, 'j', []⟩] ∧
    specDirectTypeCode c7Line = some 'H' ∧ ('j' : Char) ≠ 'H' := by
  refine ⟨?_, by decide, by decide⟩
  decide

/-! ## Multicast framing lemmas -/

theorem seqHeader_len_ge (data : Bytes) (L n u q : Nat)
    (hH : parse_sequence_header (pySlice data 0 8) = (L, n, u, q)) (hL : L ≠ 0) :
    8 ≤ data.length := by
  by_contra hlt
  push_neg at hlt
  have hlen : (pySlice data 0 8).length ≠ 8 := by
    simp only [pySlice, List.drop_zero, List.length_take]
    omega
  unfold parse_sequence_header at hH
  rw [if_neg hlen] at hH
  injection hH with hh1 _
  exact hL hh1.symm

theorem walkBlock_ok (data : Bytes) (seq : Nat) :
    ∀ (n off : Nat) (s : MCSession), blockOkB data off n = true →
    ∃ recs s1, Mc.walkBlock data seq s off n = .ok (recs, s1) ∧
      recs.length = n ∧ offsetChainFrom off recs ∧
      ∀ r ∈ recs,
        r.mlen = byteAt data r.off ∧
        r.mtype = byteAt data (r.off + 1) ∧
        r.body = pySlice data (r.off + 2) (r.off + r.mlen) ∧
        r.body.length = r.mlen - 2 ∧
        (Mc.known r.mtype = true → r.res.isSome = true) ∧
        (Mc.known r.mtype = false → r.res = none) := by
  intro n
  induction n with
  | zero =>
    intro off s _
    exact ⟨[], s, rfl, rfl, trivial, by simp⟩
  | succ m ih =>
    intro off s hOk
    simp only [blockOkB, Bool.and_eq_true, decide_eq_true_eq] at hOk
    obtain ⟨⟨⟨h1, h2⟩, h3⟩, h4⟩ := hOk
    by_cases hk : Mc.known (byteAt data (off + 1))
    · obtain ⟨recs, s2, heq, hlen, hchain, hprops⟩ :=
        ih (off + byteAt data off)
          ((Mc.process_msg_header (byteAt data (off + 1)) { s with contract := seq }
            (pySlice data (off + 2) (off + byteAt data off))).1) h4
      refine ⟨{ off := off, mlen := byteAt data off, mtype := byteAt data (off + 1),
                body := pySlice data (off + 2) (off + byteAt data off),
                res := some (Mc.process_msg_header (byteAt data (off + 1))
                  { s with contract := seq }
                  (pySlice data (off + 2) (off + byteAt data off))).2 } :: recs,
              s2, ?_, ?_, ⟨rfl, hchain⟩, ?_⟩
      · simp only [Mc.walkBlock, h1, if_true, hk, heq]
      · simp [hlen]
      · intro r hr
        rcases List.mem_cons.mp hr with hr | hr
        · subst hr
          refine ⟨rfl, rfl, rfl, ?_, by simp, by simp [hk]⟩
          simp only [pySlice, List.length_drop, List.length_take]
          omega
        · exact hprops r hr
    · have hk2 : Mc.known (byteAt data (off + 1)) = false := by
        simpa using hk
      obtain ⟨recs, s2, heq, hlen, hchain, hprops⟩ :=
        ih (off + byteAt data off) { s with contract := seq } h4
      refine ⟨{ off := off, mlen := byteAt data off, mtype := byteAt data (off + 1),
                body := pySlice data (off + 2) (off + byteAt data off),
                res := none } :: recs,
              s2, ?_, ?_, ⟨rfl, hchain⟩, ?_⟩
      · simp only [Mc.walkBlock, h1, if_true, hk2, Bool.false_eq_true, if_false]
        rw [heq]
      · simp [hlen]
      · intro r hr
        rcases List.mem_cons.mp hr with hr | hr
        · subst hr
          refine ⟨rfl, rfl, rfl, ?_, by simp [hk], by simp⟩
          simp only [pySlice, List.length_drop, List.length_take]
          omega
        · exact hprops r hr

theorem parseGo_congr : ∀ (f1 f2 : Nat) (s : MCSession) (data : Bytes),
    data.length < f1 → data.length < f2 → Mc.parseGo f1 s data = Mc.parseGo f2 s data := by
  intro f1
  induction f1 with
  | zero =>
    intro f2 s data h1 h2
    omega
  | succ g ih =>
    intro f2 s data h1 h2
    cases f2 with
    | zero => omega
    | succ g2 =>
      simp only [Mc.parseGo]
      rcases hH : parse_sequence_header (pySlice data 0 8) with ⟨L, n, u, q⟩
      by_cases hL : L = 0
      · simp [hL]
      · have h8 : 8 ≤ data.length := seqHeader_len_ge data L n u q hH hL
        rw [if_neg hL, if_neg hL]
        cases hw : Mc.walkBlock data q s 8 n with
        | error e => rfl
        | ok p =>
          obtain ⟨recs, s1⟩ := p
          dsimp only
          rw [ih g2 s1 (data.drop L) (by simp only [List.length_drop]; omega)
            (by simp only [List.length_drop]; omega)]

theorem mcParse_step (s : MCSession) (data : Bytes) (L n u q : Nat)
    (hH : parse_sequence_header (pySlice data 0 8) = (L, n, u, q)) (hL : L ≠ 0) :
    Mc.parse s data =
      match Mc.walkBlock data q s 8 n with
      | .error e => .error e
      | .ok (recs, s1) =>
        match Mc.parse s1 (data.drop L) with
        | .error e => .error e
        | .ok blocks => .ok (⟨L, n, u, q, recs⟩ :: blocks) := by
  have h8 : 8 ≤ data.length := seqHeader_len_ge data L n u q hH hL
  unfold Mc.parse
  conv_lhs => rw [Mc.parseGo]
  rw [hH]
  simp only [if_neg hL]
  cases hw : Mc.walkBlock data q s 8 n with
  | error e => rfl
  | ok p =>
    obtain ⟨recs, s1⟩ := p
    dsimp only
    rw [parseGo_congr data.length ((data.drop L).length + 1) s1 (data.drop L)
      (by simp only [List.length_drop]; omega) (by simp)]

/-- Claim C5 (confirmed): for a sequence block whose header declares
`message_count = n` and nonzero `block_length = L`, and whose `n`
sub-messages lie inside the buffer with declared lengths of at least 2, the
inner loop runs exactly `n` times; each iteration reads the 1-byte length
and 1-byte type at the current offset, hands `data[offset+2 : offset+mlen]`
(`mlen - 2` bytes) to the dispatcher exactly when the type is in the
catalog, and advances by the declared length regardless of the dispatch
outcome; the outer loop then continues with the buffer advanced by exactly
`L` bytes from the header's start. -/
theorem C5_sequence_block_traversal
    (s : MCSession) (data : Bytes) (L n u q : Nat)
    (hH : parse_sequence_header (pySlice data 0 8) = (L, n, u, q))
    (hL : L ≠ 0) (hOk : blockOkB data 8 n = true) :
    ∃ recs s1,
      Mc.walkBlock data q s 8 n = .ok (recs, s1) ∧
      recs.length = n ∧
      offsetChainFrom 8 recs ∧
      (∀ r ∈ recs,
        r.mlen = byteAt data r.off ∧
        r.mtype = byteAt data (r.off + 1) ∧
        r.body = pySlice data (r.off + 2) (r.off + r.mlen) ∧
        r.body.length = r.mlen - 2 ∧
        (Mc.known r.mtype = true → r.res.isSome = true) ∧
        (Mc.known r.mtype = false → r.res = none)) ∧
      Mc.parse s data =
        (match Mc.parse s1 (data.drop L) with
         | .error e => .error e
         | .ok blocks => .ok (⟨L, n, u, q, recs⟩ :: blocks)) := by
  obtain ⟨recs, s1, heq, hlen, hchain, hprops⟩ := walkBlock_ok data q n 8 s hOk
  refine ⟨recs, s1, heq, hlen, hchain, hprops, ?_⟩
  rw [mcParse_step s data L n u q hH hL, heq]

/-- Claim C5, witness: the traversal statement on a concrete three-message
block (`seq_len = 27`, `count = 3`) containing a Time message, a Delete
Order message, and a message of unknown type 0x99. -/
theorem C5_sequence_block_traversal_witness :
    parse_sequence_header (pySlice c5Data 0 8) = (27, 3, 0, 0) ∧
    (27 : Nat) ≠ 0 ∧
    blockOkB c5Data 8 3 = true ∧
    (∃ recs s1,
      Mc.walkBlock c5Data 0 s0 8 3 = .ok (recs, s1) ∧
      recs.length = 3 ∧
      offsetChainFrom 8 recs ∧
      (∀ r ∈ recs,
        r.mlen = byteAt c5Data r.off ∧
        r.mtype = byteAt c5Data (r.off + 1) ∧
        r.body = pySlice c5Data (r.off + 2) (r.off + r.mlen) ∧
        r.body.length = r.mlen - 2 ∧
        (Mc.known r.mtype = true → r.res.isSome = true) ∧
        (Mc.known r.mtype = false → r.res = none)) ∧
      Mc.parse s0 c5Data =
        (match Mc.parse s1 (c5Data.drop 27) with
         | .error e => .error e
         | .ok blocks => .ok (⟨27, 3, 0, 0, recs⟩ :: blocks))) :=
  ⟨by decide, by decide, by decide,
   C5_sequence_block_traversal s0 c5Data 27 3 0 0 (by decide) (by decide) (by decide)⟩

/-! ## Truncation lemmas -/

theorem byteAt_dropLast (data : Bytes) (i : Nat) (h : i + 1 < data.length) :
    byteAt data.dropLast i = byteAt data i := by
  unfold byteAt
  congr 1
  rw [List.dropLast_eq_take, List.getD_eq_getElem?_getD, List.getD_eq_getElem?_getD,
    List.getElem?_take]
  rw [if_pos (by omega)]

theorem pySlice_take_of_le (data : Bytes) (a b m : Nat) (h : b ≤ m) :
    pySlice (data.take m) a b = pySlice data a b := by
  simp [pySlice, List.take_take, Nat.min_eq_left h]

theorem pySlice_trunc_last (data : Bytes) (a : Nat) (_ha : a ≤ data.length) :
    pySlice data.dropLast a data.length = (pySlice data a data.length).dropLast := by
  rw [List.dropLast_eq_take]
  have h1 : pySlice (data.take (data.length - 1)) a data.length =
      List.take (data.length - 1 - a) (data.drop a) := by
    simp only [pySlice, List.take_take, Nat.min_eq_right (by omega : data.length - 1 ≤ data.length)]
    exact List.drop_take (data.length - 1) a data
  have h2 : pySlice data a data.length = data.drop a := by
    simp [pySlice, List.take_of_length_le (le_refl data.length)]
  rw [h1, h2, List.dropLast_eq_take]
  congr 1
  simp only [List.length_drop]
  omega

theorem blockEnd_last_le (data : Bytes) :
    ∀ (k off : Nat), 1 ≤ k → off + blockLastMlen data off k ≤ blockEnd data off k := by
  intro k
  induction k with
  | zero => omega
  | succ m ih =>
    intro off _
    cases m with
    | zero => simp [blockLastMlen, blockEnd]
    | succ m2 =>
      have hx := ih (off + byteAt data off) (by omega)
      simp only [blockLastMlen, blockEnd]
      simp only [blockEnd] at hx
      omega

theorem walkBlock_truncated (data : Bytes) (seq : Nat) :
    ∀ (n off : Nat) (s : MCSession), blockOkB data off n = true → 1 ≤ n →
      blockEnd data off n = data.length →
      3 ≤ blockLastMlen data off n →
      ∃ recs s1 recs2 s2,
        Mc.walkBlock data seq s off n = .ok (recs, s1) ∧
        Mc.walkBlock data.dropLast seq s off n = .ok (recs2, s2) ∧
        recs.length = n ∧ recs2.length = n ∧
        recs2.take (n - 1) = recs.take (n - 1) ∧
        (recs2.getLast?).map SubRec.body = (recs.getLast?).map (fun r => r.body.dropLast) := by
  intro n
  induction n with
  | zero =>
    intro off s _ h1
    omega
  | succ m ih =>
    intro off s hOk hn hEnd hLast
    simp only [blockOkB, Bool.and_eq_true, decide_eq_true_eq] at hOk
    obtain ⟨⟨⟨h1, h2⟩, h3⟩, h4⟩ := hOk
    cases m with
    | zero =>
      have hEnd1 : off + byteAt data off = data.length := by
        simpa [blockEnd] using hEnd
      have hL3 : 3 ≤ byteAt data off := by
        simpa [blockLastMlen] using hLast
      have hb0 : byteAt data.dropLast off = byteAt data off :=
        byteAt_dropLast data off (by omega)
      have hb1 : byteAt data.dropLast (off + 1) = byteAt data (off + 1) :=
        byteAt_dropLast data (off + 1) (by omega)
      have h1x : off + 2 ≤ data.dropLast.length := by
        rw [List.length_dropLast]
        omega
      have hbody : pySlice data.dropLast (off + 2) (off + byteAt data off) =
          (pySlice data (off + 2) (off + byteAt data off)).dropLast := by
        rw [hEnd1]
        exact pySlice_trunc_last data (off + 2) (by omega)
      have hfull : Mc.walkBlock data seq s off 1 =
          .ok ([{ off := off, mlen := byteAt data off, mtype := byteAt data (off + 1),
                  body := pySlice data (off + 2) (off + byteAt data off),
                  res := if Mc.known (byteAt data (off + 1)) then
                    some (Mc.process_msg_header (byteAt data (off + 1)) { s with contract := seq }
                      (pySlice data (off + 2) (off + byteAt data off))).2 else none }],
               if Mc.known (byteAt data (off + 1)) then
                 (Mc.process_msg_header (byteAt data (off + 1)) { s with contract := seq }
                   (pySlice data (off + 2) (off + byteAt data off))).1
               else { s with contract := seq }) := by
        simp only [Mc.walkBlock, h1, if_true]
      have htrunc : Mc.walkBlock data.dropLast seq s off 1 =
          .ok ([{ off := off, mlen := byteAt data off, mtype := byteAt data (off + 1),
                  body := (pySlice data (off + 2) (off + byteAt data off)).dropLast,
                  res := if Mc.known (byteAt data (off + 1)) then
                    some (Mc.process_msg_header (byteAt data (off + 1)) { s with contract := seq }
                      ((pySlice data (off + 2) (off + byteAt data off)).dropLast)).2 else none }],
               if Mc.known (byteAt data (off + 1)) then
                 (Mc.process_msg_header (byteAt data (off + 1)) { s with contract := seq }
                   ((pySlice data (off + 2) (off + byteAt data off)).dropLast)).1
               else { s with contract := seq }) := by
        simp only [Mc.walkBlock, h1x, if_true, hb0, hb1, hbody]
      refine ⟨_, _, _, _, hfull, htrunc, by simp, by simp, by simp, ?_⟩
      simp
    | succ m2 =>
      have hEnd2 : blockEnd data (off + byteAt data off) (m2 + 1) = data.length := by
        simpa [blockEnd] using hEnd
      have hLast2 : 3 ≤ blockLastMlen data (off + byteAt data off) (m2 + 1) := by
        simpa [blockLastMlen] using hLast
      have hle : off + byteAt data off + 3 ≤ data.length := by
        have hx := blockEnd_last_le data (m2 + 1) (off + byteAt data off) (by omega)
        omega
      have hb0 : byteAt data.dropLast off = byteAt data off :=
        byteAt_dropLast data off (by omega)
      have hb1 : byteAt data.dropLast (off + 1) = byteAt data (off + 1) :=
        byteAt_dropLast data (off + 1) (by omega)
      have h1x : off + 2 ≤ data.dropLast.length := by
        rw [List.length_dropLast]
        omega
      have hbody : pySlice data.dropLast (off + 2) (off + byteAt data off) =
          pySlice data (off + 2) (off + byteAt data off) := by
        rw [List.dropLast_eq_take]
        exact pySlice_take_of_le data (off + 2) _ _ (by omega)
      obtain ⟨recs, s1, recs2, s2, hw1, hw2, hl1, hl2, htk, hlb⟩ :=
        ih (off + byteAt data off)
          (if Mc.known (byteAt data (off + 1)) then
            (Mc.process_msg_header (byteAt data (off + 1)) { s with contract := seq }
              (pySlice data (off + 2) (off + byteAt data off))).1
          else { s with contract := seq })
          h4 (by omega) hEnd2 hLast2
      refine ⟨{ off := off, mlen := byteAt data off, mtype := byteAt data (off + 1),
                body := pySlice data (off + 2) (off + byteAt data off),
                res := if Mc.known (byteAt data (off + 1)) then
                  some (Mc.process_msg_header (byteAt data (off + 1)) { s with contract := seq }
                    (pySlice data (off + 2) (off + byteAt data off))).2 else none } :: recs,
              s1,
              { off := off, mlen := byteAt data off, mtype := byteAt data (off + 1),
                body := pySlice data (off + 2) (off + byteAt data off),
                res := if Mc.known (byteAt data (off + 1)) then
                  some (Mc.process_msg_header (byteAt data (off + 1)) { s with contract := seq }
                    (pySlice data (off + 2) (off + byteAt data off))).2 else none } :: recs2,
              s2, ?_, ?_, by simp [hl1], by simp [hl2], ?_, ?_⟩
      · rw [Mc.walkBlock, if_pos h1]
        dsimp only
        rw [hw1]
      · rw [Mc.walkBlock, if_pos h1x]
        dsimp only
        rw [hb0, hb1, hbody, hw2]
      · simpa using htk
      · cases recs2 with
        | nil => simp at hl2
        | cons a l =>
          cases recs with
          | nil => simp at hl1
          | cons b l2 =>
            simpa [List.getLast?_cons_cons] using hlb

/-- Claim C8 (amended): truncating the final sub-message of a tight,
well-formed sequence block by one byte does not crash the parse PROVIDED the
final sub-message's declared length is at least 3, so that its 2-byte
length/type header survives: the truncated buffer parses to a single block
with the same number of sub-messages, the first `n - 1` of them — dispatch
outcomes included — identical to those of the untruncated buffer, and the
final sub-message handed its body short by exactly one byte.  (When the
final sub-message is a bare 2-byte header, truncation starves the inner
`unpack("BB", ...)`, whose struct.error is uncaught in the source — see the
counterexample.) -/
theorem C8_truncated_block_amended
    (s : MCSession) (data : Bytes) (L n u q : Nat)
    (hH : parse_sequence_header (pySlice data 0 8) = (L, n, u, q))
    (hL : L ≠ 0) (hn : 1 ≤ n) (hOk : blockOkB data 8 n = true)
    (hTight : blockEnd data 8 n = data.length) (hLen : data.length = L)
    (hLast3 : 3 ≤ blockLastMlen data 8 n) :
    ∃ recs s1 recs2 s2,
      Mc.walkBlock data q s 8 n = .ok (recs, s1) ∧
      Mc.walkBlock data.dropLast q s 8 n = .ok (recs2, s2) ∧
      recs.length = n ∧ recs2.length = n ∧
      recs2.take (n - 1) = recs.take (n - 1) ∧
      (recs2.getLast?).map SubRec.body = (recs.getLast?).map (fun r => r.body.dropLast) ∧
      Mc.parse s data.dropLast = .ok [⟨L, n, u, q, recs2⟩] := by
  obtain ⟨recs, s1, recs2, s2, hw1, hw2, hl1, hl2, htk, hlb⟩ :=
    walkBlock_truncated data q n 8 s hOk hn hTight hLast3
  refine ⟨recs, s1, recs2, s2, hw1, hw2, hl1, hl2, htk, hlb, ?_⟩
  have h11 : 11 ≤ data.length := by
    have hx := blockEnd_last_le data n 8 hn
    omega
  have hH2 : parse_sequence_header (pySlice data.dropLast 0 8) = (L, n, u, q) := by
    rw [List.dropLast_eq_take, pySlice_take_of_le data 0 8 _ (by omega)]
    exact hH
  rw [mcParse_step s data.dropLast L n u q hH2 hL, hw2]
  have hdrop : data.dropLast.drop L = [] := by
    apply List.drop_eq_nil_of_le
    rw [List.length_dropLast]
    omega
  dsimp only
  rw [hdrop]
  simp [Mc.parse, Mc.parseGo, parse_sequence_header, pySlice]

/-- Claim C8, counterexample: a block whose single sub-message is a bare
2-byte header (declared length 2, no body).  Truncating that block by one
byte leaves only the length byte, and the inner `unpack("BB", ...)` of
`parse` — which is NOT inside any try/except — raises struct.error: the
parse call crashes instead of surfacing a per-message error. -/
theorem C8_counterexample :
    c8TruncTiny = c8TinyFull.dropLast ∧
    (Mc.parse s0 c8TinyFull).isOk = true ∧
    Mc.parse s0 c8TruncTiny = .error "struct.error" := by
  refine ⟨by decide, by decide, by decide⟩

/-- Claim C8, witness: the amended statement on the concrete tight block
`c8Data` (header `seq_len = 29, count = 2`, a Time message and a Delete
Order message). -/
theorem C8_truncated_block_amended_witness :
    parse_sequence_header (pySlice c8Data 0 8) = (29, 2, 0, 0) ∧
    blockOkB c8Data 8 2 = true ∧
    blockEnd c8Data 8 2 = c8Data.length ∧
    c8Data.length = 29 ∧
    3 ≤ blockLastMlen c8Data 8 2 ∧
    (∃ recs s1 recs2 s2,
      Mc.walkBlock c8Data 0 s0 8 2 = .ok (recs, s1) ∧
      Mc.walkBlock c8Data.dropLast 0 s0 8 2 = .ok (recs2, s2) ∧
      recs.length = 2 ∧ recs2.length = 2 ∧
      recs2.take (2 - 1) = recs.take (2 - 1) ∧
      (recs2.getLast?).map SubRec.body = (recs.getLast?).map (fun r => r.body.dropLast) ∧
      Mc.parse s0 c8Data.dropLast = .ok [⟨29, 2, 0, 0, recs2⟩]) :=
  ⟨by decide, by decide, by decide, by decide, by decide,
   C8_truncated_block_amended s0 c8Data 29 2 0 0 (by decide) (by decide) (by decide)
     (by decide) (by decide) (by decide) (by decide)⟩
